import Mathlib

/-!
Verification development for the EduTech NAPLAN backend
(`ai/text_cleaning.py`, `ai/naplan_scoring.py`, `ai/gemini_writing_eval.py`,
`subject_feedback/gemini_subject_feedback.py`).

The Python code is shallowly embedded: Python `str` becomes `String`
(operated on through its `List Char` field), Python `int` becomes `Int`,
Python `float` becomes `ℚ` (exact rational arithmetic; none of the proved
properties depends on binary floating-point rounding, and where a boundary
could be affected this is noted at the theorem), JSON values become the
inductive `JVal`, Python `dict` becomes an insertion-ordered association
list with in-place update, and each fallible stage returns `Except`.
The external generative-model call is an oracle parameter
(`Except String JVal`): an `.error e` outcome stands for any exception
(with text `e`) raised by the network call or JSON extraction.
-/

set_option maxRecDepth 10000
set_option maxHeartbeats 2000000

namespace EduTech

/-! ## Python string semantics (shared primitives)

`pyIsSpace` is Python's `str.isspace` / regex `\s` character class (for the
code points that can actually appear here); `pyStrip` is `str.strip()`;
`strContains hay needle` is Python's `needle in hay`; `strLower` is
`str.lower()` (ASCII case folding; the repository only compares ASCII
rubric/topic names). -/

def pyWhitespace : List Nat :=
  [9, 10, 11, 12, 13, 28, 29, 30, 31, 32, 0x85, 0xA0, 0x1680,
   0x2000, 0x2001, 0x2002, 0x2003, 0x2004, 0x2005, 0x2006, 0x2007,
   0x2008, 0x2009, 0x200A, 0x2028, 0x2029, 0x202F, 0x205F, 0x3000]

def pyIsSpace (c : Char) : Bool := pyWhitespace.contains c.toNat

def pyStrip (l : List Char) : List Char :=
  ((l.dropWhile pyIsSpace).reverse.dropWhile pyIsSpace).reverse

/-- Initial-segment test: `leadMatch needle hay` iff `needle` begins `hay`. -/
def leadMatch : List Char → List Char → Bool
  | [], _ => true
  | _ :: _, [] => false
  | a :: as, b :: bs => a == b && leadMatch as bs

/-- `containsSeq needle hay`: `needle` occurs contiguously inside `hay`
(Python substring containment; the empty needle always matches). -/
def containsSeq (needle : List Char) : List Char → Bool
  | [] => needle.isEmpty
  | c :: rest => leadMatch needle (c :: rest) || containsSeq needle rest

/-- Python `needle in hay` for strings. -/
def strContains (hay needle : String) : Bool := containsSeq needle.data hay.data

def strLower (s : String) : String := String.mk (s.data.map Char.toLower)

/-- Python `str.strip()` on a `String`. -/
def pyStripStr (s : String) : String := String.mk (pyStrip s.data)

/-! ## `ai/text_cleaning.py` -/

/-- The curly-quote/dash replacements of `sanitize_text` (each is a
single-character replacement, so a character map). -/
def replaceCurly (c : Char) : Char :=
  if c.toNat = 0x2019 || c.toNat = 0x2018 then Char.ofNat 39
  else if c.toNat = 0x201C || c.toNat = 0x201D then Char.ofNat 34
  else if c.toNat = 0x2013 || c.toNat = 0x2014 then Char.ofNat 45
  else c

/-- Code points of `WEIRD_PUNCT_RE` (the characters between the brackets of
the regex, including the variation selector U+FE0E). -/
def weirdPunct : List Nat :=
  [0x2022, 0x25CF, 0x25AA, 0xFE0E, 0x25C6, 0x25C7, 0x25A0, 0x25A1,
   0x25B6, 0x25BA, 0x27A4, 0x2794, 0x2192]

def isWeird (c : Char) : Bool := weirdPunct.contains c.toNat

/-- `MULTI_DOT_RE.sub("...", ·)`: every maximal run of at least three dots is
replaced by exactly three dots.  `n` counts the pending run of dots. -/
def dotsOut (n : Nat) : List Char :=
  if 3 ≤ n then ['.', '.', '.'] else List.replicate n '.'

def collapseDotsGo : List Char → Nat → List Char
  | [], n => dotsOut n
  | c :: rest, n =>
    if c == '.' then collapseDotsGo rest (n + 1)
    else dotsOut n ++ c :: collapseDotsGo rest 0

def collapseDots (l : List Char) : List Char := collapseDotsGo l 0

/-- `MULTI_SPACE_RE.sub(" ", ·)`: every maximal run of at least two
whitespace characters becomes a single ASCII space; a lone whitespace
character is left as it is.  `run` is the pending whitespace run, reversed. -/
def runOut (run : List Char) : List Char :=
  if 2 ≤ run.length then [' '] else run.reverse

def collapseSpacesGo : List Char → List Char → List Char
  | [], run => runOut run
  | c :: rest, run =>
    if pyIsSpace c then collapseSpacesGo rest (c :: run)
    else runOut run ++ c :: collapseSpacesGo rest []

def collapseSpaces (l : List Char) : List Char := collapseSpacesGo l []

/-- The regex/replacement pipeline of `sanitize_text` before the length cap:
strip, normalize curly quotes/dashes, drop the weird-punctuation characters,
drop non-ASCII, collapse dot runs, collapse whitespace runs, strip. -/
def sanitizeCore (s : String) : String :=
  String.mk (pyStrip (collapseSpaces (collapseDots
    (((pyStrip s.data).map replaceCurly).filter
      (fun c => !isWeird c && c.toNat ≤ 0x7F)))))

/-- `cut.rsplit(" ", 1)[0]`: everything before the last ASCII space.
(Only called when `cut` contains a space.) -/
def dropFromLastSpace (cut : List Char) : List Char :=
  (((cut.reverse.dropWhile (fun c => c ≠ ' ')).drop 1)).reverse

/-- The word-boundary truncation of `sanitize_text` (applied only when the
sanitized text is longer than `maxLen`). -/
def truncateSan (l : List Char) (maxLen : Nat) : List Char :=
  let cut := l.take maxLen
  let cut := if cut.contains ' ' then pyStrip (dropFromLastSpace cut) else pyStrip cut
  pyStrip (cut ++ ['.', '.', '.'])

/-- `sanitize_text(s, max_len)` from `ai/text_cleaning.py`. -/
def sanitizeText (s : String) (maxLen : Option Nat) : String :=
  let t := sanitizeCore s
  match maxLen with
  | none => t
  | some m => if m < t.data.length then String.mk (truncateSan t.data m) else t

/-- `cleaned_for_checks` from `ai/text_cleaning.py`. -/
def cleanedForChecks (s : String) : String := sanitizeText s none

/-- `is_blank` from `ai/text_cleaning.py`. -/
def isBlank (s : String) : Bool := (pyStrip s.data).isEmpty

/-- `count_words` from `ai/text_cleaning.py`: the number of maximal
whitespace-separated tokens (`len(t.split())`, `0` for blank input). -/
def countWordsGo : List Char → Bool → Nat
  | [], _ => 0
  | c :: rest, inWord =>
    if pyIsSpace c then countWordsGo rest false
    else (if inWord then 0 else 1) + countWordsGo rest true

def countWords (s : String) : Nat := countWordsGo s.data false

/-! ## Exact rationals for Python floats

Python `float` values are modelled as exact rationals.  `PyQ` is an
unreduced fraction with the denominator kept as a `Nat` (every operation
below keeps it positive); it is used instead of Mathlib's `ℚ` so that the
embedded functions evaluate inside the kernel.  `PyQ.toRat` bridges to `ℚ`
for proofs.  Where CPython's binary floating-point rounding can change a
compared-against-a-threshold result, the rounding is modelled exactly
(`roundDouble` below, used by `band_from_score`); the remaining float
arithmetic (timing metrics, percentages fed to `round(x, 1)` and string
formatting) is exact-rational, noted at the affected definitions. -/

structure PyQ where
  num : Int
  den : Nat
  deriving DecidableEq

namespace PyQ

def ofInt (n : Int) : PyQ := ⟨n, 1⟩

def mul (a b : PyQ) : PyQ := ⟨a.num * b.num, a.den * b.den⟩

def add (a b : PyQ) : PyQ := ⟨a.num * b.den + b.num * a.den, a.den * b.den⟩

def sub (a b : PyQ) : PyQ := ⟨a.num * b.den - b.num * a.den, a.den * b.den⟩

/-- Division; a zero divisor yields `0` (the embedded code only divides by
values it has checked to be nonzero, so this branch is never exercised). -/
def div (a b : PyQ) : PyQ :=
  if b.num = 0 then ⟨0, 1⟩
  else ⟨a.num * b.den * (if b.num < 0 then -1 else 1), a.den * b.num.natAbs⟩

def blt (a b : PyQ) : Bool := a.num * b.den < b.num * a.den

def ble (a b : PyQ) : Bool := a.num * b.den ≤ b.num * a.den

def beq (a b : PyQ) : Bool := a.num * b.den == b.num * a.den

def isNeg (a : PyQ) : Bool := a.num < 0

/-- Python `int(x)` on a float: truncation toward zero. -/
def trunc (a : PyQ) : Int := Int.tdiv a.num a.den

/-- Python `max(0.0, x)`. -/
def max0 (a : PyQ) : PyQ := if a.num < 0 then ⟨0, 1⟩ else a

/-- `round(x, 1)` (round half to even, like Python's `round`). -/
def round1 (a : PyQ) : PyQ :=
  let n : Int := a.num * 10
  let d : Int := (a.den : Int)
  let q : Int := Int.fdiv n d
  let r : Int := n - q * d
  let up : Int :=
    if 2 * r < d then q
    else if d < 2 * r then q + 1
    else if q % 2 = 0 then q else q + 1
  ⟨up, 10⟩

def toRat (a : PyQ) : ℚ := (a.num : ℚ) / (a.den : ℚ)

end PyQ

/-! ## JSON values and Python dict semantics

`JVal` models the Python values flowing through the code: `jint` is a
Python `int`, `jnum` a Python `float` (an exact `PyQ` rational),
`jobj` a Python `dict` as an insertion-ordered association list (Python
dicts have unique keys; `dictSet` replaces the value of an existing key in
place and appends a new key at the end, exactly like a dict item
assignment). -/

inductive JVal where
  | jnull
  | jbool (b : Bool)
  | jint (n : Int)
  | jnum (q : PyQ)
  | jstr (s : String)
  | jarr (xs : List JVal)
  | jobj (fields : List (String × JVal))

/-- `d.get(key)` on an association list: the (first) value stored at `key`. -/
def jGet : List (String × JVal) → String → Option JVal
  | [], _ => none
  | (k, v) :: rest, key => if k = key then some v else jGet rest key

/-- `d[key] = v` on an association list: replace in place, or append. -/
def dictSet : List (String × JVal) → String → JVal → List (String × JVal)
  | [], key, v => [(key, v)]
  | (k, w) :: rest, key, v =>
    if k = key then (k, v) :: rest else (k, w) :: dictSet rest key v

/-- `d.setdefault(key, v)`: leave `d` unchanged when `key` is present. -/
def dictSetD (f : List (String × JVal)) (key : String) (v : JVal) :
    List (String × JVal) :=
  if (jGet f key).isSome then f else dictSet f key v

/-- Python truthiness of a `JVal`. -/
def falsy : JVal → Bool
  | .jnull => true
  | .jbool b => !b
  | .jint n => n == 0
  | .jnum q => q.num == 0
  | .jstr s => s.isEmpty
  | .jarr xs => xs.isEmpty
  | .jobj fields => fields.isEmpty

/-- Python `x or y` (the dict-get default `None` is `jnull`). -/
def pyOr (x y : JVal) : JVal := if falsy x then y else x

/-- `d.get(key)` with Python's `None` default. -/
def jGetD (f : List (String × JVal)) (key : String) : JVal :=
  (jGet f key).getD .jnull

/-- `isinstance(x, int)` (Python `bool` is a subtype of `int`, so `True`
counts as `1` and `False` as `0`), returning the integer value. -/
def pyIsInt : JVal → Option Int
  | .jint n => some n
  | .jbool b => some (if b then 1 else 0)
  | _ => none

/-- Python `str(x)` for a float; exact one-decimal rationals (the only
values the repository ever formats) are rendered like Python renders the
corresponding float (`20.5`, `20.0`); other rationals fall back to a
fraction notation, which no proved property depends on. -/
def qRepr (q : PyQ) : String :=
  if q.den ≠ 0 ∧ (q.num * 10) % (q.den : Int) = 0 then
    let m : Int := Int.tdiv (q.num * 10) (q.den : Int)
    (if m < 0 then "-" else "") ++ toString (m.natAbs / 10) ++ "." ++
      toString (m.natAbs % 10)
  else toString q.num ++ "/" ++ toString q.den

mutual
/-- Python `repr(x)` for a `JVal` (used by `str` inside containers).
String escaping inside `repr` is not modelled (no proved property inspects
the repr of a container); `\x27` is the single-quote character. -/
def pyRepr : JVal → String
  | .jnull => "None"
  | .jbool b => if b then "True" else "False"
  | .jint n => toString n
  | .jnum q => qRepr q
  | .jstr s => "\x27" ++ s ++ "\x27"
  | .jarr xs => "[" ++ pyReprList xs ++ "]"
  | .jobj fields => "\x7b" ++ pyReprFields fields ++ "\x7d"

def pyReprList : List JVal → String
  | [] => ""
  | [x] => pyRepr x
  | x :: rest => pyRepr x ++ ", " ++ pyReprList rest

def pyReprFields : List (String × JVal) → String
  | [] => ""
  | [(k, v)] => "\x27" ++ k ++ "\x27: " ++ pyRepr v
  | (k, v) :: rest => "\x27" ++ k ++ "\x27: " ++ pyRepr v ++ ", " ++ pyReprFields rest
end

/-- Python `str(x)`. -/
def pyStr : JVal → String
  | .jstr s => s
  | v => pyRepr v

/-! ## `json.loads`

A recursive-descent JSON parser standing in for Python's `json.loads`
(an external library function).  Deviations, none of which any proved
property depends on: numbers are parsed only when integral (a document
containing a fractional number is rejected rather than parsed to a float),
and raw control characters inside strings are accepted. -/

def jsonWs (c : Char) : Bool := c == ' ' || c == '\t' || c == '\n' || c == '\r'

def skipWs (l : List Char) : List Char := l.dropWhile jsonWs

def hexVal (c : Char) : Option Nat :=
  if '0' ≤ c ∧ c ≤ '9' then some (c.toNat - 48)
  else if 'a' ≤ c ∧ c ≤ 'f' then some (c.toNat - 87)
  else if 'A' ≤ c ∧ c ≤ 'F' then some (c.toNat - 70)
  else none

/-- Parse the body of a JSON string literal (after the opening quote). -/
def parseJStr : Nat → List Char → Option (String × List Char)
  | 0, _ => none
  | _ + 1, [] => none
  | fuel + 1, c :: rest =>
    if c == '"' then some ("", rest)
    else if c == '\\' then
      match rest with
      | [] => none
      | e :: rest' =>
        let cont (ch : Char) (rem : List Char) : Option (String × List Char) :=
          (parseJStr fuel rem).map fun (s, r) => (String.mk (ch :: s.data), r)
        if e == '"' then cont '"' rest'
        else if e == '\\' then cont '\\' rest'
        else if e == '/' then cont '/' rest'
        else if e == 'b' then cont (Char.ofNat 8) rest'
        else if e == 'f' then cont (Char.ofNat 12) rest'
        else if e == 'n' then cont '\n' rest'
        else if e == 'r' then cont '\r' rest'
        else if e == 't' then cont '\t' rest'
        else if e == 'u' then
          match rest' with
          | h1 :: h2 :: h3 :: h4 :: rest'' =>
            match hexVal h1, hexVal h2, hexVal h3, hexVal h4 with
            | some a, some b, some gc, some d =>
              cont (Char.ofNat (((a * 16 + b) * 16 + gc) * 16 + d)) rest''
            | _, _, _, _ => none
          | _ => none
        else none
    else (parseJStr fuel rest).map fun (s, r) => (String.mk (c :: s.data), r)

def isDigit (c : Char) : Bool := '0' ≤ c && c ≤ '9'

def digitsToNat (l : List Char) : Nat :=
  l.foldl (fun acc c => acc * 10 + (c.toNat - 48)) 0

/-- Parse a JSON number; only integral numbers (no `.` fraction, no
exponent) are accepted, per the deviation noted above. -/
def parseJNum (l : List Char) : Option (JVal × List Char) :=
  let (neg, l') := match l with
    | '-' :: r => (true, r)
    | _ => (false, l)
  let ds := l'.takeWhile isDigit
  let rest := l'.dropWhile isDigit
  if ds.isEmpty then none
  else if 2 ≤ ds.length ∧ ds.headD ' ' = '0' then none
  else match rest with
    | '.' :: _ => none
    | 'e' :: _ => none
    | 'E' :: _ => none
    | _ =>
      let n : Int := (digitsToNat ds : Int)
      some (.jint (if neg then -n else n), rest)

mutual
def parseJVal : Nat → List Char → Option (JVal × List Char)
  | 0, _ => none
  | fuel + 1, l =>
    match skipWs l with
    | [] => none
    | c :: rest =>
      if c == '"' then
        (parseJStr (fuel + 1) rest).map fun (s, r) => (.jstr s, r)
      else if c == '{' then
        match skipWs rest with
        | '}' :: r => some (.jobj [], r)
        | _ => parseJObj fuel rest []
      else if c == '[' then
        match skipWs rest with
        | ']' :: r => some (.jarr [], r)
        | _ => parseJArr fuel rest []
      else if leadMatch "null".data (c :: rest) then
        some (.jnull, (c :: rest).drop 4)
      else if leadMatch "true".data (c :: rest) then
        some (.jbool true, (c :: rest).drop 4)
      else if leadMatch "false".data (c :: rest) then
        some (.jbool false, (c :: rest).drop 5)
      else parseJNum (c :: rest)

def parseJObj : Nat → List Char → List (String × JVal) →
    Option (JVal × List Char)
  | 0, _, _ => none
  | fuel + 1, l, acc =>
    match skipWs l with
    | '"' :: rest =>
      match parseJStr (fuel + 1) rest with
      | none => none
      | some (k, r1) =>
        match skipWs r1 with
        | ':' :: r2 =>
          match parseJVal fuel r2 with
          | none => none
          | some (v, r3) =>
            match skipWs r3 with
            | ',' :: r4 => parseJObj fuel r4 (acc ++ [(k, v)])
            | '}' :: r4 => some (.jobj (acc ++ [(k, v)]), r4)
            | _ => none
        | _ => none
    | _ => none

def parseJArr : Nat → List Char → List JVal → Option (JVal × List Char)
  | 0, _, _ => none
  | fuel + 1, l, acc =>
    match parseJVal fuel l with
    | none => none
    | some (v, r1) =>
      match skipWs r1 with
      | ',' :: r2 => parseJArr fuel r2 (acc ++ [v])
      | ']' :: r2 => some (.jarr (acc ++ [v]), r2)
      | _ => none
end

/-- `json.loads`: parse a complete document (only whitespace may follow). -/
def jsonLoads (s : String) : Option JVal :=
  match parseJVal (s.data.length + 1) s.data with
  | some (v, rest) => if (skipWs rest).isEmpty then some v else none
  | none => none

/-! ## `ai/naplan_scoring.py` -/

/-- `MAX_SCORES` (insertion order preserved). -/
def MAX_SCORES : List (String × Int) :=
  [("Audience", 6), ("Text Structure", 6), ("Ideas", 6),
   ("Persuasive Devices", 5), ("Vocabulary", 6), ("Cohesion", 5),
   ("Paragraphing", 4), ("Sentence Structure", 6), ("Punctuation", 5),
   ("Spelling", 6)]

/-- `build_schema_max`: the rubric applicable to a text type; for
`Narrative` the value of `Persuasive Devices` becomes `None`. -/
def buildSchemaMax (textType : String) : List (String × Option Int) :=
  MAX_SCORES.map fun p =>
    if textType = "Narrative" ∧ p.1 = "Persuasive Devices" then (p.1, none)
    else (p.1, some p.2)

def persuasiveSignals : List String :=
  ["convince", "persuade", "should", "must", "because", "i think",
   "i believe", "dear", "first", "second", "therefore", "in conclusion",
   "please"]

def narrativeSignals : List String :=
  ["one day", "once", "then", "suddenly", "after that", "the end",
   "story", "went", "found"]

/-- `guess_text_type`. -/
def guessTextType (writingPrompt studentWriting : String) : String :=
  let text := strLower (writingPrompt ++ "\n" ++ studentWriting)
  let p := (persuasiveSignals.filter fun sig => strContains text sig).length
  let n := (narrativeSignals.filter fun sig => strContains text sig).length
  if n < p then "Persuasive" else "Narrative"

/-- `extract_json`: direct parse, then the substring from the first `{` to
the last `}`.  A raised exception is an `Except.error` (its text matters to
no proved property; the final fallback's `json.JSONDecodeError` is
represented by its message). -/
def extractJson (text : String) : Except String JVal :=
  let t := pyStripStr text
  if t.data.isEmpty then .error "Empty model response."
  else
    match jsonLoads t with
    | some v => .ok v
    | none =>
      match t.data.findIdx? (· == '{'), t.data.reverse.findIdx? (· == '}') with
      | some start, some rev =>
        let stop := t.data.length - 1 - rev
        if stop ≤ start then .error "No JSON object found in model response."
        else
          match jsonLoads (String.mk ((t.data.drop start).take (stop + 1 - start))) with
          | some v => .ok v
          | none => .error "json.decoder.JSONDecodeError"
      | _, _ => .error "No JSON object found in model response."

/-- Fuel-driven binary logarithm (`Nat.log2` is defined by well-founded
recursion, which the kernel cannot evaluate; this structural version can).
`log2go fuel n` equals `Nat.log2 n` whenever `n ≤ fuel`. -/
def log2go : Nat → Nat → Nat
  | 0, _ => 0
  | fuel + 1, n => if 2 ≤ n then log2go fuel (n / 2) + 1 else 0

def nlog2 (n : Nat) : Nat := log2go n n

/-- Round half to even of the fraction `a / b` to an integer (`b ≠ 0`). -/
def rndHalfEven (a b : Nat) : Nat :=
  let m := a / b
  let r := a % b
  if 2 * r < b then m
  else if b < 2 * r then m + 1
  else if m % 2 = 0 then m else m + 1

/-- IEEE-754 binary64 round-to-nearest-even of the nonnegative rational
`a / d`: 53-bit significand, gradual underflow below `2 ^ (-1022)` with the
subnormal quantum `2 ^ (-1074)`.  The exponent is unbounded above: CPython
raises `OverflowError` from `int / int` when the rounded quotient would
reach `2 ^ 1024`, so quotients that large never produce a float (and no
embedded computation reaches them). -/
def roundPosRat (a d : Nat) : PyQ :=
  if a = 0 ∨ d = 0 then ⟨0, 1⟩
  else
    let k0 : Int := (nlog2 a : Int) - (nlog2 d : Int)
    let k : Int := if d * 2 ^ k0.toNat ≤ a * 2 ^ (-k0).toNat then k0 else k0 - 1
    let e : Int := max (k - 52) (-1074)
    let m : Nat :=
      if 0 ≤ e then rndHalfEven a (d * 2 ^ e.toNat)
      else rndHalfEven (a * 2 ^ (-e).toNat) d
    if 0 ≤ e then ⟨(m : Int) * 2 ^ e.toNat, 1⟩ else ⟨(m : Int), 2 ^ (-e).toNat⟩

/-- Correctly rounded binary64 value of an exact rational. -/
def roundDouble (q : PyQ) : PyQ :=
  if q.num < 0 then
    let r := roundPosRat q.num.natAbs q.den
    ⟨-r.num, r.den⟩
  else roundPosRat q.num.natAbs q.den

/-- CPython `x / y` on numbers whose exact quotient is `PyQ.div x y`:
the correctly rounded double. -/
def flDiv (x y : PyQ) : PyQ := roundDouble (PyQ.div x y)

/-- CPython float multiplication: the correctly rounded double of the
exact product. -/
def flMul (x y : PyQ) : PyQ := roundDouble (PyQ.mul x y)

/-- `band_from_score`, with `(total / max_score) * 100.0` computed in
binary64 floating point exactly as CPython does (each operation correctly
rounded; see `roundPosRat` for the domain note on astronomically large
quotients). -/
def bandFromScore (total maxScore : Int) : String :=
  if maxScore ≤ 0 then "Below Minimum Standard"
  else
    let pct := flMul (flDiv (PyQ.ofInt total) (PyQ.ofInt maxScore)) (PyQ.ofInt 100)
    if PyQ.blt pct (PyQ.ofInt 35) then "Below Minimum Standard"
    else if PyQ.blt pct (PyQ.ofInt 65) then "At Minimum Standard"
    else "Above Minimum Standard"

/-- The band function as the spec words it: thresholds applied to the
*exact* percentage `total/max × 100`.  `band_from_score` follows this on
the reachable rubric domain but not everywhere (see the C4
counterexample). -/
def bandFromScoreSpec (total maxScore : Int) : String :=
  if maxScore ≤ 0 then "Below Minimum Standard"
  else
    let pct := PyQ.mul (PyQ.div (PyQ.ofInt total) (PyQ.ofInt maxScore)) (PyQ.ofInt 100)
    if PyQ.blt pct (PyQ.ofInt 35) then "Below Minimum Standard"
    else if PyQ.blt pct (PyQ.ofInt 65) then "At Minimum Standard"
    else "Above Minimum Standard"

/-- `clamp_int` (every caller passes an `int`, so the `int(x)` coercion is
the identity and the failure default is never taken). -/
def clampInt (x lo hi : Int) : Int := max lo (min hi x)

/-- `WORD_RANGES.get(year_level, WORD_RANGES[3])` as
`(min, max, strong_max)`. -/
def wordRange (year : Int) : Nat × Nat × Nat :=
  if year = 3 then (80, 150, 200)
  else if year = 5 then (180, 300, 350)
  else if year = 7 then (300, 500, 600)
  else if year = 9 then (450, 700, 700)
  else (80, 150, 200)

structure Wcf where
  wordCount : Nat
  yearLevel : Int
  status : String
  message : String
  suggestion : String
  deriving DecidableEq

/-- `generate_word_count_feedback`. -/
def generateWordCountFeedback (yearLevel : Int) (wordCount : Nat) : Wcf :=
  let r := wordRange yearLevel
  let minW := r.1
  let maxW := r.2.1
  let strongMax := r.2.2
  let wc := toString wordCount
  let yr := toString yearLevel
  if wordCount < minW then
    ⟨wordCount, yearLevel, "below_minimum",
     "Word count (" ++ wc ++ ") is below the expected minimum for Year " ++ yr ++ ".",
     "Aim for " ++ toString minW ++ "-" ++ toString maxW ++
       " words. Add more detail and examples to reach the target."⟩
  else if strongMax < wordCount then
    ⟨wordCount, yearLevel, "above_maximum",
     "Word count (" ++ wc ++ ") exceeds the recommended maximum for Year " ++ yr ++ ".",
     "Try to be more concise. Target " ++ toString minW ++ "-" ++ toString maxW ++
       " words by combining ideas and removing repetition."⟩
  else if wordCount < maxW then
    ⟨wordCount, yearLevel, "below_recommended",
     "Word count (" ++ wc ++ ") is within range but could be developed further.",
     "Consider adding more detail to reach " ++ toString minW ++ "-" ++
       toString maxW ++ " words."⟩
  else
    ⟨wordCount, yearLevel, "within_range",
     "Word count (" ++ wc ++ ") is within the expected range for Year " ++ yr ++ ".",
     "Good length for this year level."⟩

def Wcf.toJVal (w : Wcf) : JVal :=
  .jobj [("word_count", .jint w.wordCount), ("year_level", .jint w.yearLevel),
         ("status", .jstr w.status), ("message", .jstr w.message),
         ("suggestion", .jstr w.suggestion)]

/-! ### `ensure_review_sections_shape` -/

/-- One step of the `by_id` construction: only a dict entry with a string
`id` is indexed. -/
def byIdStep (acc : List (String × JVal)) (s : JVal) : List (String × JVal) :=
  match s with
  | .jobj fs =>
    match jGet fs "id" with
    | some (.jstr i) => dictSet acc i (.jobj fs)
    | _ => acc
  | _ => acc

/-- The `by_id` lookup: a later entry with the same id overrides an
earlier one. -/
def buildById (sections : List JVal) : List (String × JVal) :=
  sections.foldl byIdStep []

/-- `get_section`: fetch or create the section, default then sanitize the
title, and reset a malformed `items` field.  (The two successive Python
assignments to `s["title"]` are collapsed into one `dictSet` with the
final value, which leaves the field in the same position.) -/
def getSection (byId : List (String × JVal)) (secId title : String) :
    List (String × JVal) :=
  let f := match jGet byId secId with
    | some (.jobj fs) => fs
    | _ => [("id", JVal.jstr secId), ("title", JVal.jstr title),
            ("items", JVal.jarr [])]
  let t := match jGet f "title" with
    | some (.jstr t) => t
    | _ => title
  let f := dictSet f "title" (.jstr (sanitizeText t (some 80)))
  match jGet f "items" with
  | some (.jarr _) => f
  | _ => dictSet f "items" (.jarr [])

/-- One item of `sanitize_items`: a plain string is sanitized at 200, a
flat dict keeps its keys with string values sanitized at 260, anything
else is dropped. -/
def sanitizeItem : JVal → Option JVal
  | .jstr s => some (.jstr (sanitizeText s (some 200)))
  | .jobj kvs =>
    some (.jobj (kvs.map fun kv =>
      (kv.1, match kv.2 with
             | .jstr s => JVal.jstr (sanitizeText s (some 260))
             | v => v)))
  | _ => none

/-- `sanitize_items`: keep at most `maxItems` items, then per-item
sanitize/drop. -/
def sanitizeItems (items : List JVal) (maxItems : Nat) : List JVal :=
  (items.take maxItems).filterMap sanitizeItem

def itemsOf (f : List (String × JVal)) : List JVal :=
  match jGet f "items" with
  | some (.jarr l) => l
  | _ => []

def shapeSection (byId : List (String × JVal)) (secId title : String)
    (cap : Nat) : List (String × JVal) :=
  let f := getSection byId secId title
  dictSet f "items" (.jarr (sanitizeItems (itemsOf f) cap))

/-- The supplied sections list (`[]` unless the field is a list). -/
def sectionsOf (rs : JVal) : List JVal :=
  match rs with
  | .jarr l => l
  | _ => []

/-- The value stored into `data["review_sections"]`. -/
def shapeSections (rs : JVal) : List JVal :=
  let byId := buildById (sectionsOf rs)
  [.jobj (shapeSection byId "sentence_improvements" "Make these sentences stronger" 8),
   .jobj (shapeSection byId "ideas_development" "Ideas development suggestions" 6),
   .jobj (shapeSection byId "next_steps" "Next time try this" 8),
   .jobj (shapeSection byId "mini_rewrite" "Mini rewrite (example)" 4)]

/-- `ensure_review_sections_shape(data)` (which mutates `data` in place)
as a function from the old to the new `data`.  Every call site passes a
dict. -/
def ensureReviewSectionsShape (d : JVal) : JVal :=
  match d with
  | .jobj f =>
    .jobj (dictSet f "review_sections" (.jarr (shapeSections (jGetD f "review_sections"))))
  | v => v

/-! ### Criteria normalization -/

/-- Python truthiness combined with "is not a `str`": the values for which
`sanitize_text(x or default, n)` would raise a `TypeError`. -/
def truthyNonStr (v : JVal) : Bool :=
  !falsy v && (match v with | .jstr _ => false | _ => true)

/-- `x or ""` for a value that is a string or falsy. -/
def strOrEmpty (v : JVal) : String :=
  match v with
  | .jstr s => s
  | _ => ""

/-- The `lower_map` comprehension of `canonicalize_criterion_name`
(later rubric keys override earlier ones on a lowercase collision, like a
dict comprehension; the real rubrics have no collisions). -/
def lowerLookup (am : List (String × Option Int)) (key : String) : Option String :=
  ((am.reverse.map fun p => (strLower p.1, p.1))).lookup key

/-- `canonicalize_criterion_name`: sanitize, case-insensitive rubric
lookup; an unmatched nonempty name is returned unchanged. -/
def canonicalizeCriterionName (name : String) (am : List (String × Option Int)) :
    String :=
  let raw := sanitizeText name (some 40)
  if raw.isEmpty then ""
  else
    match lowerLookup am (strLower raw) with
    | some hit => hit
    | none => raw

structure Crit where
  name : String
  score : Option Int
  max : Option Int
  suggestion : String
  evidenceQuote : String
  deriving DecidableEq

def defaultSuggestion : String := "Add more detail and check this area next time."

/-- The per-entry loop of `normalize_criteria_list`.  `seen` is the set of
lowercase names already kept.  An entry whose `name`, `suggestion` or
`evidence_quote` is a truthy non-string raises a `TypeError` inside
`sanitize_text`/`str` in Python; that is the `.error` case (the writing
path catches it, and no proved property depends on its message). -/
def normLoop (am : List (String × Option Int)) (tt : String) :
    List JVal → List String → Except String (List Crit × Int)
  | [], _ => .ok ([], 0)
  | c :: rest, seen =>
    match c with
    | .jobj fields =>
      let nameV := jGetD fields "name"
      if truthyNonStr nameV then .error "TypeError: criterion name" else
      let name := canonicalizeCriterionName (strOrEmpty nameV) am
      if name.isEmpty then normLoop am tt rest seen
      else if seen.contains (strLower name) then normLoop am tt rest seen
      else
        let seen' := strLower name :: seen
        let suggV := jGetD fields "suggestion"
        if tt = "Narrative" ∧ name = "Persuasive Devices" then
          if truthyNonStr suggV then .error "TypeError: suggestion" else
          let sugg := sanitizeText
            (if falsy suggV then "N/A (narrative)" else strOrEmpty suggV) (some 220)
          match normLoop am tt rest seen' with
          | .error e => .error e
          | .ok (l, t) => .ok (⟨"Persuasive Devices", none, none, sugg, ""⟩ :: l, t)
        else
          let mxJ : JVal := match am.lookup name with
            | some (some n) => .jint n
            | some none => .jnull
            | none => jGetD fields "max"
          let scoreV := jGetD fields "score"
          let evqV := jGetD fields "evidence_quote"
          if truthyNonStr suggV then .error "TypeError: suggestion" else
          if truthyNonStr evqV then .error "TypeError: evidence_quote" else
          let res : Option Int × Option Int × Int :=
            match pyIsInt mxJ with
            | some mx =>
              let sc := clampInt ((pyIsInt scoreV).getD 0) 0 mx
              (some sc, some mx, sc)
            | none => (some ((pyIsInt scoreV).getD 0), some 0, 0)
          let sugg := strOrEmpty (pyOr suggV (.jstr ""))
          let evq := strOrEmpty (pyOr evqV (.jstr ""))
          let entrySugg := if (pyStripStr sugg).isEmpty then defaultSuggestion
            else sanitizeText sugg (some 220)
          let entryEvq := if (pyStripStr evq).isEmpty then ""
            else sanitizeText evq (some 220)
          match normLoop am tt rest seen' with
          | .error e => .error e
          | .ok (l, t) =>
            .ok (⟨name, res.1, res.2.1, entrySugg, entryEvq⟩ :: l, t + res.2.2)
    | _ => normLoop am tt rest seen

/-- A rubric entry synthesized for a name the model did not supply. -/
def synthCrit (tt : String) (name : String) (mx : Option Int) : Crit :=
  if tt = "Narrative" ∧ name = "Persuasive Devices" then
    ⟨"Persuasive Devices", none, none, "N/A (narrative)", ""⟩
  else
    ⟨name, some 0, some (mx.getD 0), defaultSuggestion, ""⟩

/-- The fill loop of `normalize_criteria_list`: append, in rubric order,
an entry for every rubric name not among the supplied entries' names. -/
def fillMissing (am : List (String × Option Int)) (existing : List String)
    (tt : String) : List Crit :=
  am.filterMap fun p =>
    if existing.contains p.1 then none else some (synthCrit tt p.1 p.2)

/-- `normalize_criteria_list`. -/
def normalizeCriteriaList (crits : JVal) (am : List (String × Option Int))
    (tt : String) : Except String (List Crit × Int) :=
  let l := match crits with | .jarr xs => xs | _ => []
  match normLoop am tt l [] with
  | .error e => .error e
  | .ok (out, total) => .ok (out ++ fillMissing am (out.map Crit.name) tt, total)

def optIntJ : Option Int → JVal
  | some n => .jint n
  | none => .jnull

def Crit.toJVal (c : Crit) : JVal :=
  .jobj [("name", .jstr c.name), ("score", optIntJ c.score),
         ("max", optIntJ c.max), ("suggestion", .jstr c.suggestion),
         ("evidence_quote", .jstr c.evidenceQuote)]

/-! ## `ai/gemini_writing_eval.py`

`evaluate_naplan_writing` is embedded with two extra parameters: `hasKey`
models whether `GEMINI_API_KEY` is set, and `modelOutcome` is the oracle
for `_call_full_model` (prompt construction and the network call are the
external collaborator): `.ok v` is the JSON object it extracted, `.error e`
any exception (with text `e`) raised by the call or the JSON extraction.
Exceptions raised *after* the call while reshaping the model JSON are
`throw`s inside the try body; their Python `TypeError` texts are not
reproduced verbatim (no proved property mentions them). -/

def MIN_AI_WORDS : Nat := 20

/-- `data["outer"]["key"] = v` when `data["outer"]` is a dict (every call
site has checked this). -/
def jSet2 (f : List (String × JVal)) (outer key : String) (v : JVal) :
    List (String × JVal) :=
  match jGet f outer with
  | some (.jobj g) => dictSet f outer (.jobj (dictSet g key v))
  | _ => f

def prOffTopic (note : String) : JVal :=
  .jobj [("score", .jint 0), ("verdict", .jstr "off_topic"),
         ("note", .jstr note), ("evidence", .jstr "")]

def prOnTopic : JVal :=
  .jobj [("score", .jint 100), ("verdict", .jstr "on_topic"),
         ("note", .jstr ""), ("evidence", .jstr "")]

/-- `_base_output_shape`. -/
def baseOutputShape (studentYear : Int) (textType : String) (maxTotal : Int) :
    JVal :=
  ensureReviewSectionsShape (.jobj
    [("meta", .jobj
       [("year_level", .jint studentYear), ("text_type", .jstr textType),
        ("valid_response", .jbool false),
        ("prompt_relevance", prOffTopic "")]),
     ("overall", .jobj
       [("total_score", .jint 0), ("max_score", .jint maxTotal),
        ("band", .jstr "Below Minimum Standard"),
        ("one_line_summary", .jstr ""), ("summary", .jstr ""),
        ("strengths", .jarr []), ("weaknesses", .jarr [])]),
     ("review_sections", .jarr []), ("criteria", .jarr [])])

/-- The text-type resolution at the top of `evaluate_naplan_writing`. -/
def resolveTextType (textType : Option String)
    (writingPrompt studentWriting : String) : String :=
  let tt := match textType with
    | none => guessTextType writingPrompt studentWriting
    | some t => t
  if tt = "Narrative" ∨ tt = "Persuasive" then tt else "Narrative"

/-- `max_total`: the sum of the integer values of the applicable rubric. -/
def maxTotalOf (tt : String) : Int :=
  ((buildSchemaMax tt).filterMap Prod.snd).sum

def defaultSummaryLine : String :=
  "Good effort. Keep practising and add more detail next time."

/-- The body of the `try:` block of the full-evaluation path. -/
def evalTryBody (studentYear : Int) (tt : String) (maxTotal : Int)
    (wcf : Wcf) (modelOutcome : Except String JVal) : Except String JVal := do
  let data ← modelOutcome
  let fields ← match data with
    | .jobj fs => pure fs
    | _ => throw "Model returned non-dict JSON."
  let fields := dictSetD fields "meta" (.jobj [])
  let fields := dictSetD fields "overall" (.jobj [])
  let fields := dictSetD fields "criteria" (.jarr [])
  let fields := dictSetD fields "review_sections" (.jarr [])
  let metaF ← match jGet fields "meta" with
    | some (.jobj g) => pure g
    | _ => throw "TypeError: meta is not a dict"
  let metaF := dictSet metaF "year_level" (.jint studentYear)
  let metaF := dictSet metaF "text_type" (.jstr tt)
  let metaF := dictSet metaF "valid_response" (.jbool true)
  let metaF := dictSet metaF "word_count_feedback" wcf.toJVal
  let metaF := match jGet metaF "prompt_relevance" with
    | some (.jobj pr) =>
      if (jGet pr "verdict").isSome then metaF
      else dictSet metaF "prompt_relevance" prOnTopic
    | _ => dictSet metaF "prompt_relevance" prOnTopic
  let fields := dictSet fields "meta" (.jobj metaF)
  let crits := pyOr (jGetD fields "criteria") (.jarr [])
  let res ← normalizeCriteriaList crits (buildSchemaMax tt) tt
  let fields := dictSet fields "criteria" (.jarr (res.1.map Crit.toJVal))
  let totalFinal := res.2
  let ovF ← match jGet fields "overall" with
    | some (.jobj g) => pure g
    | _ => throw "TypeError: overall is not a dict"
  let ovF := dictSet ovF "max_score" (.jint maxTotal)
  let ovF := dictSet ovF "total_score" (.jint totalFinal)
  let bandV := jGetD ovF "band"
  if truthyNonStr bandV then throw "TypeError: band is not a string" else
  let band := if falsy bandV then bandFromScore totalFinal maxTotal
    else strOrEmpty bandV
  let band := sanitizeText band (some 32)
  let band := if band = "Below Minimum Standard" ∨ band = "At Minimum Standard" ∨
      band = "Above Minimum Standard" then band
    else bandFromScore totalFinal maxTotal
  let ovF := dictSet ovF "band" (.jstr band)
  let ol := match pyOr (jGetD ovF "one_line_summary") (.jstr "") with
    | .jstr s => if (pyStripStr s).isEmpty then defaultSummaryLine else s
    | _ => defaultSummaryLine
  let ovF := dictSet ovF "one_line_summary" (.jstr (sanitizeText ol (some 140)))
  let summ := match pyOr (jGetD ovF "summary") (.jstr "") with
    | .jstr s => if (pyStripStr s).isEmpty then defaultSummaryLine else s
    | _ => defaultSummaryLine
  let ovF := dictSet ovF "summary" (.jstr (sanitizeText summ (some 260)))
  let stList := match jGet ovF "strengths" with
    | some (.jarr l) => l
    | _ => []
  let wkList := match jGet ovF "weaknesses" with
    | some (.jarr l) => l
    | _ => []
  let keepFour (l : List JVal) (cap : Nat) : List JVal :=
    (l.take 4).filterMap fun x =>
      match x with
      | .jstr s =>
        if (pyStripStr s).isEmpty then none
        else some (JVal.jstr (sanitizeText s (some cap)))
      | _ => none
  let ovF := dictSet ovF "strengths" (.jarr (keepFour stList 120))
  let ovF := dictSet ovF "weaknesses" (.jarr (keepFour wkList 120))
  let fields := dictSet fields "overall" (.jobj ovF)
  pure (ensureReviewSectionsShape (.jobj fields))

/-- The `except` branch of the full-evaluation path (`MODEL_FAILED`). -/
def modelFailedResult (studentYear : Int) (tt : String) (maxTotal : Int)
    (wcf : Wcf) (e : String) : JVal :=
  match baseOutputShape studentYear tt maxTotal with
  | .jobj f =>
    let f := jSet2 f "meta" "word_count_feedback" wcf.toJVal
    let f := jSet2 f "meta" "valid_response" (.jbool false)
    let f := jSet2 f "meta" "message" (.jstr "AI evaluation failed.")
    let f := jSet2 f "meta" "error_detail" (.jstr (sanitizeText e (some 260)))
    let f := match jGet f "meta" with
      | some (.jobj m) =>
        match pyOr (jGetD m "prompt_relevance") (.jobj []) with
        | .jobj pr =>
          if (jGet pr "verdict").isSome then f
          else jSet2 f "meta" "prompt_relevance" (prOffTopic "")
        | _ => jSet2 f "meta" "prompt_relevance" (prOffTopic "")
      | _ => f
    let f := jSet2 f "overall" "summary"
      (.jstr "Prompt relevance was checked, but full assessment failed.")
    ensureReviewSectionsShape (.jobj f)
  | v => v

inductive EvalOut where
  | success (result : JVal)
  | failure (error : String)

/-- `evaluate_naplan_writing`.  (`prompt_clean` feeds only the model call,
which the oracle replaces.) -/
def evaluateNaplanWriting (studentYear : Int)
    (writingPrompt studentWriting : String) (textType : Option String)
    (hasKey : Bool) (modelOutcome : Except String JVal) : EvalOut :=
  let tt := resolveTextType textType writingPrompt studentWriting
  let studentClean := cleanedForChecks studentWriting
  let maxTotal := maxTotalOf tt
  if isBlank studentClean then
    match baseOutputShape studentYear tt maxTotal with
    | .jobj f =>
      let f := jSet2 f "meta" "valid_response" (.jbool false)
      let f := jSet2 f "meta" "prompt_relevance"
        (prOffTopic "No student writing provided.")
      let f := jSet2 f "overall" "summary"
        (.jstr "No writing was provided for assessment.")
      .success (ensureReviewSectionsShape (.jobj f))
    | v => .success v
  else if !hasKey then .failure "GEMINI_API_KEY is not set in environment."
  else
    let wc := countWords studentClean
    let wcf := generateWordCountFeedback studentYear wc
    if wc < MIN_AI_WORDS then
      match baseOutputShape studentYear tt maxTotal with
      | .jobj f =>
        let f := jSet2 f "meta" "valid_response" (.jbool false)
        let f := jSet2 f "meta" "message" (.jstr
          ("Text length is not enough to assess. Please write at least " ++
           toString MIN_AI_WORDS ++ " words (current: " ++ toString wc ++ ")."))
        let f := jSet2 f "meta" "word_count_feedback" (.jobj
          [("word_count", .jint wc), ("year_level", .jint studentYear),
           ("status", .jstr "too_short_for_ai"),
           ("message", .jstr "Text length is not enough to run NAPLAN evaluation."),
           ("suggestion", .jstr
             "Add more sentences with clear ideas and details, then try again.")])
        let f := jSet2 f "meta" "prompt_relevance"
          (prOffTopic "Too little text to judge relevance.")
        let f := jSet2 f "overall" "summary"
          (.jstr "The response is too short to assess reliably.")
        .success (ensureReviewSectionsShape (.jobj f))
      | v => .success v
    else
      match evalTryBody studentYear tt maxTotal wcf modelOutcome with
      | .ok result => .success result
      | .error e => .success (modelFailedResult studentYear tt maxTotal wcf e)

/-! ## `subject_feedback/gemini_subject_feedback.py` -/

/-- `infer_subject_from_quiz_name`. -/
def inferSubjectFromQuizName (quizName : String) : String :=
  let q := strLower quizName
  if strContains q "numeracy" ∨ strContains q "mathematics" ∨ strContains q "math"
    then "Numeracy (Mathematics)"
  else if (strContains q "language" ∧ strContains q "convention") ∨
      strContains q "convention" then "Language Conventions"
  else if strContains q "reading" then "Reading"
  else if strContains q "writing" then "Writing"
  else "NAPLAN Assessment"

/-- Python `float(s)` on a string: optional sign, decimal digits with an
optional fraction and exponent, surrounding whitespace allowed.
(`inf`/`nan` and digit-group underscores are not modelled; no proved
property feeds them in.) -/
def parseFloatExp (m : PyQ) (l : List Char) : Option PyQ :=
  match l with
  | [] => some m
  | e :: rest =>
    if e == 'e' || e == 'E' then
      let (eneg, r) := match rest with
        | '+' :: r => (false, r)
        | '-' :: r => (true, r)
        | _ => (false, rest)
      let ds := r.takeWhile isDigit
      let r' := r.dropWhile isDigit
      if ds.isEmpty ∨ !r'.isEmpty then none
      else
        let p : Nat := 10 ^ digitsToNat ds
        some (if eneg then ⟨m.num, m.den * p⟩ else ⟨m.num * p, m.den⟩)
    else none

def parseFloat (s : String) : Option PyQ :=
  let l := pyStrip s.data
  let (neg, l) := match l with
    | '+' :: r => (false, r)
    | '-' :: r => (true, r)
    | _ => (false, l)
  let ip := l.takeWhile isDigit
  let l1 := l.dropWhile isDigit
  let k : Option (Nat × Nat × List Char) := match l1 with
    | '.' :: r =>
      let fp := r.takeWhile isDigit
      let l2 := r.dropWhile isDigit
      if ip.isEmpty ∧ fp.isEmpty then none
      else some (digitsToNat (ip ++ fp), 10 ^ fp.length, l2)
    | _ => if ip.isEmpty then none else some (digitsToNat ip, 1, l1)
  match k with
  | none => none
  | some (n, d, rest) =>
    (parseFloatExp ⟨(if neg then -(n : Int) else (n : Int)), d⟩ rest)

/-- `to_number`. -/
def toNumber (x : JVal) : Option PyQ :=
  match x with
  | .jint n => some (PyQ.ofInt n)
  | .jnum q => some q
  | .jbool b => some (PyQ.ofInt (if b then 1 else 0))
  | .jstr s => if (pyStrip s.data).isEmpty then none else parseFloat s
  | .jobj fs =>
    match jGet fs "$numberDecimal" with
    | some (.jstr s) => parseFloat s
    | _ =>
      match jGet fs "$numberInt" with
      | some (.jstr s) => parseFloat s
      | _ =>
        match jGet fs "$numberLong" with
        | some (.jstr s) => parseFloat s
        | _ => none
  | _ => none

/-- `topic_scored_total`. -/
def topicScoredTotal (v : List (String × JVal)) : Option (PyQ × PyQ) :=
  let tryPair (a b : String) : Option (PyQ × PyQ) :=
    match toNumber (jGetD v a), toNumber (jGetD v b) with
    | some sa, some sb => some (sa, sb)
    | _, _ => none
  (tryPair "scored" "total") <|> (tryPair "points" "available") <|>
    (tryPair "points_scored" "points_available") <|>
    (tryPair "correct" "attempted")

structure NTopic where
  name : String
  scored : PyQ
  total : PyQ
  deriving DecidableEq

structure StudentData where
  percentage : PyQ
  grade : Option String
  topics : List NTopic
  deriving DecidableEq

def pyqZero : PyQ := ⟨0, 1⟩

/-- `normalize_student_data` (the `(None, err)` return becomes `.error err`
with the exact source message). -/
def normalizeStudentData (doc : List (String × JVal)) :
    Except String StudentData :=
  let scoreObj := pyOr (jGetD doc "score") (.jobj [])
  let pg : Option PyQ × Option String := match scoreObj with
    | .jobj so =>
      let g := match jGet so "grade" with
        | some (.jstr s) => some s
        | _ => none
      let p := match toNumber (jGetD so "percentage") with
        | some q => some q
        | none =>
          match toNumber (jGetD so "points"), toNumber (jGetD so "available") with
          | some pts, some avail =>
            if PyQ.blt pyqZero avail
              then some (PyQ.mul (PyQ.div pts avail) (PyQ.ofInt 100))
              else none
          | _, _ => none
      (p, g)
    | _ => (none, none)
  let topics : List NTopic := match jGetD doc "topicBreakdown" with
    | .jobj tb =>
      tb.filterMap fun kv =>
        match kv.2 with
        | .jobj v => (topicScoredTotal v).map fun st => ⟨kv.1, st.1, st.2⟩
        | _ => none
    | _ => []
  if topics.isEmpty then
    .error "Missing/empty topicBreakdown (expected an object with \x7btopic:\x7bscored,total\x7d\x7d or compatible keys)"
  else
    let pct := match pg.1 with
      | some q => some q
      | none =>
        let ts := topics.foldl (fun acc t => PyQ.add acc t.scored) pyqZero
        let tt := topics.foldl (fun acc t => PyQ.add acc t.total) pyqZero
        if PyQ.blt pyqZero tt
          then some (PyQ.mul (PyQ.div ts tt) (PyQ.ofInt 100))
          else none
    match pct with
    | none =>
      .error "Missing overall percentage (score.percentage or score.points/available or computable from topics)"
    | some q => .ok ⟨q, pg.2, topics⟩

/-- `is_no_attempt_session` (the `doc` argument is unused in the source;
`float(t.get("total", 0) or 0)` is the topic's `total`, since a `0.0`
total short-circuits to the same value `0`). -/
def isNoAttemptSession (topics : List NTopic) : Bool :=
  PyQ.ble (topics.foldl (fun acc t => PyQ.add acc t.total) pyqZero) pyqZero

structure TimeMetrics where
  timeTakenMinutes : Option PyQ
  totalQuestions : Int
  secondsPerQuestion : Option PyQ
  deriving DecidableEq

/-- `compute_time_metrics`. -/
def computeTimeMetrics (doc : List (String × JVal)) (topics : List NTopic) :
    TimeMetrics :=
  let d : Option PyQ := match jGet doc "duration" with
    | some v => toNumber v
    | none => none
  let timeTaken := d.map fun dv =>
    let secs := if PyQ.blt (PyQ.ofInt 100000) dv then PyQ.div dv (PyQ.ofInt 1000)
      else dv
    PyQ.round1 (PyQ.div secs (PyQ.ofInt 60))
  let totalQuestions : Int :=
    topics.foldl (fun acc t => acc + PyQ.trunc t.total) 0
  let spq := match timeTaken with
    | some tm =>
      if 0 < totalQuestions then
        some (PyQ.round1 (PyQ.div (PyQ.mul tm (PyQ.ofInt 60))
          (PyQ.ofInt totalQuestions)))
      else none
    | none => none
  ⟨timeTaken, totalQuestions, spq⟩

/-- `pace_label`. -/
def paceLabel (yearLevel : Option Int) (spq : Option PyQ) : String :=
  match spq with
  | none => "unknown"
  | some s =>
    let fs : Int × Int :=
      if yearLevel = some 3 then (25, 70)
      else if yearLevel = some 5 then (22, 60)
      else if yearLevel = some 7 then (20, 55)
      else if yearLevel = some 9 then (18, 50)
      else (20, 60)
    if PyQ.blt s (PyQ.ofInt fs.1) then "fast"
    else if PyQ.blt (PyQ.ofInt fs.2) s then "slow"
    else "steady"

structure Topic' where
  name : String
  percentage : PyQ
  scored : PyQ
  total : PyQ
  missed : PyQ
  deriving DecidableEq

structure Analysis where
  yearLevel : Option Int
  overallPercentage : PyQ
  accuracy : PyQ
  grade : String
  timeTakenMinutes : Option PyQ
  totalQuestions : Int
  secondsPerQuestion : Option PyQ
  pace : String
  highCount : Int
  lowCount : Int
  topTopics : List Topic'
  weakTopics : List Topic'
  deriving DecidableEq

/-- The per-topic loop of `analyze_performance` (skip zero totals, build
the entry with rounded percentage/missed, count high/low on the raw
percentage). -/
def analyzeLoop : List NTopic → List Topic' × Int × Int
  | [] => ([], 0, 0)
  | t :: rest =>
    let r := analyzeLoop rest
    if PyQ.beq t.total pyqZero then r
    else
      let pct := PyQ.mul (PyQ.div t.scored t.total) (PyQ.ofInt 100)
      let missed := PyQ.max0 (PyQ.sub t.total t.scored)
      let entry : Topic' := ⟨t.name, PyQ.round1 pct, t.scored, t.total,
        PyQ.round1 missed⟩
      (entry :: r.1,
       r.2.1 + (if PyQ.ble (PyQ.ofInt 80) pct then 1 else 0),
       r.2.2 + (if PyQ.ble (PyQ.ofInt 80) pct then 0
                else if PyQ.ble pct (PyQ.ofInt 30) then 1 else 0))

/-- Stable descending insertion by `percentage`, matching Python's stable
`sort(key=..., reverse=True)`. -/
def insDesc (x : Topic') : List Topic' → List Topic'
  | [] => [x]
  | y :: ys =>
    if PyQ.blt y.percentage x.percentage then x :: y :: ys
    else y :: insDesc x ys

def sortDescPct (l : List Topic') : List Topic' :=
  l.foldl (fun acc x => insDesc x acc) []

/-- `analyze_performance`. -/
def analyzePerformance (sd : StudentData) (doc : List (String × JVal))
    (yearLevel : Option Int) : Analysis :=
  let r := analyzeLoop sd.topics
  let sorted := sortDescPct r.1
  let top := sorted.take 3
  let weak := if 3 ≤ sorted.length
    then (sorted.drop (sorted.length - 3)).reverse
    else sorted.reverse
  let tm := computeTimeMetrics doc sd.topics
  let pace := paceLabel yearLevel tm.secondsPerQuestion
  { yearLevel := yearLevel
    overallPercentage := PyQ.round1 sd.percentage
    accuracy := PyQ.round1 sd.percentage
    grade := sd.grade.getD ""
    timeTakenMinutes := tm.timeTakenMinutes
    totalQuestions := tm.totalQuestions
    secondsPerQuestion := tm.secondsPerQuestion
    pace := pace
    highCount := r.2.1
    lowCount := r.2.2
    topTopics := top
    weakTopics := weak }

/-- `t.split("\n")`. -/
def splitNlGo : List Char → List Char → List String
  | [], acc => [String.mk acc.reverse]
  | c :: rest, acc =>
    if c == '\n' then String.mk acc.reverse :: splitNlGo rest []
    else splitNlGo rest (c :: acc)

def splitNl (t : String) : List String := splitNlGo t.data []

/-- `sep.join(l)`. -/
def joinWith (sep : String) : List String → String
  | [] => ""
  | [x] => x
  | x :: rest => x ++ sep ++ joinWith sep rest

/-- The fenced-block pre-processing of `safe_json_from_text`: collect the
lines strictly between the first fence line and the next one. -/
def fenceCollect : List String → Bool → List String
  | [], _ => []
  | line :: rest, inBlock =>
    if leadMatch "```".data (pyStripStr line).data then
      if inBlock then [] else fenceCollect rest true
    else if inBlock then line :: fenceCollect rest inBlock
    else fenceCollect rest false

def fenceReduce (t : String) : String :=
  let jsonLines := fenceCollect (splitNl t) false
  if jsonLines.isEmpty then t
  else pyStripStr (joinWith "\n" jsonLines)

def takeStr (s : String) (n : Nat) : String := String.mk (s.data.take n)

/-- `safe_json_from_text`: fence extraction (before any parse attempt),
then a direct parse, then the first-`\x7b`-to-last-`\x7d` substring of the
(possibly fence-reduced) text. -/
def safeJsonFromText (text : String) : Except String JVal :=
  let t := pyStripStr text
  let t := if strContains t "```" then fenceReduce t else t
  match jsonLoads t with
  | some v => .ok v
  | none =>
    let stop : Int := match t.data.reverse.findIdx? (· == '}') with
      | some rev => (t.data.length : Int) - rev
      | none => 0
    match t.data.findIdx? (· == '{') with
    | none =>
      .error ("Gemini did not return a JSON object. Response was: " ++ takeStr t 200)
    | some start =>
      if stop ≤ 0 then
        .error ("Gemini did not return a JSON object. Response was: " ++ takeStr t 200)
      else
        let clean := String.mk ((t.data.drop start).take (stop.toNat - start))
        match jsonLoads clean with
        | some v => .ok v
        | none => .error ("Invalid JSON from Gemini: " ++ takeStr clean 200)

/-! ### `coerce_ai_feedback_schema` -/

structure CoachItem where
  insight : String
  reason : String
  action : String
  deriving DecidableEq

structure Feedback where
  overallFeedback : String
  coach : List CoachItem
  strengths : List String
  weaknesses : List String
  growthAreas : List String
  studyTips : List String
  cta : String
  encouragement : String
  deriving DecidableEq

/-- `ensure_string(x)`: `str(x).strip() if x else ""`. -/
def ensureString (v : JVal) : String :=
  if falsy v then "" else pyStripStr (pyStr v)

def arrJ (v : JVal) : List JVal :=
  match v with
  | .jarr l => l
  | _ => []

/-- The nonempty-string extraction `[ensure_string(x) for x in arr(...)
if ensure_string(x)][:3]`. -/
def extractStrings (v : JVal) : List String :=
  ((arrJ v).filterMap fun x =>
    let s := ensureString x
    if s.isEmpty then none else some s).take 3

/-- `" ".join(l)`. -/
def joinSp (l : List String) : String := joinWith " " l

/-- Replace the last element (`l[-1] = x`; callers ensure `l` nonempty). -/
def setLast (l : List String) (x : String) : List String :=
  l.take (l.length - 1) ++ [x]

def setLastCoach (l : List CoachItem) (x : CoachItem) : List CoachItem :=
  l.take (l.length - 1) ++ [x]

def coachWeakSynth (t : Topic') : CoachItem :=
  ⟨t.name ++ " needs focused practice to improve.",
   "You missed " ++ toString (PyQ.trunc t.missed) ++ " out of " ++
     toString (PyQ.trunc t.total) ++ " questions here.",
   "Do 10 " ++ t.name ++ " questions in 15 minutes today."⟩

def coachGeneric : CoachItem :=
  ⟨"Small daily practice builds strong long-term skills.",
   "Repeating key patterns helps you remember faster.",
   "Study for 15 minutes daily and review mistakes."⟩

def coachForced (t : Topic') : CoachItem :=
  ⟨t.name ++ " is the biggest improvement opportunity.",
   "You missed " ++ toString (PyQ.trunc t.missed) ++ " out of " ++
     toString (PyQ.trunc t.total) ++ " questions in " ++ t.name ++ ".",
   "Practice 12 " ++ t.name ++ " questions tomorrow (20 minutes)."⟩

def accuracyLine (t : Topic') : String :=
  t.name ++ ": " ++ qRepr t.percentage ++ "% accuracy"

/-- The `for topic in weak_topics[:3]` fill loop shared by `weaknesses`
and `growth_areas` (stop at 3; skip topics already mentioned). -/
def fillFromWeak (fmt : Topic' → String) : List String → List Topic' → List String
  | cur, [] => cur
  | cur, t :: ts =>
    if 3 ≤ cur.length then cur
    else
      let cur' := if strContains (strLower (joinSp cur)) (strLower t.name)
        then cur else cur ++ [fmt t]
      fillFromWeak fmt cur' ts

/-- `coerce_ai_feedback_schema` (the `subject` argument is unused in the
source body). -/
def coerceAiFeedbackSchema (ai : JVal) (analysis : Analysis)
    (_subject : String) : Feedback :=
  let aiF : List (String × JVal) := match ai with
    | .jobj fs => fs
    | _ => []
  let weakTopics := analysis.weakTopics
  let topTopics := analysis.topTopics
  let weakest := weakTopics.head?
  let pace := if analysis.pace.isEmpty then "unknown" else analysis.pace
  let timeTaken := analysis.timeTakenMinutes
  let spq := analysis.secondsPerQuestion
  -- coach
  let coachItems := ((arrJ (jGetD aiF "coach")).filterMap fun item =>
    match item with
    | .jobj ifs =>
      let insight := ensureString (jGetD ifs "insight")
      let reason := ensureString (jGetD ifs "reason")
      let action := ensureString (jGetD ifs "action")
      if !insight.isEmpty && !reason.isEmpty && !action.isEmpty
        then some (⟨insight, reason, action⟩ : CoachItem) else none
    | _ => none).take 3
  let weakestMentioned := match weakest with
    | some w => coachItems.any fun it =>
        strContains (strLower it.insight) (strLower w.name) ||
        strContains (strLower it.reason) (strLower w.name)
    | none => false
  let coachItems := coachItems ++
    ((List.range 3).drop coachItems.length).map fun idx =>
      match weakTopics.get? idx with
      | some t => coachWeakSynth t
      | none => coachGeneric
  let coachItems := match weakest with
    | some w =>
      if !weakestMentioned && !coachItems.isEmpty
        then setLastCoach coachItems (coachForced w) else coachItems
    | none => coachItems
  -- strengths
  let strengths := extractStrings (jGetD aiF "strengths")
  let strengths := strengths ++
    ((topTopics.drop strengths.length).take
      (min 3 topTopics.length - strengths.length)).map accuracyLine
  let strengths :=
    if pace = "fast" ∧ timeTaken.isSome ∧ spq.isSome then
      let ts := "Good speed: " ++ qRepr (spq.getD pyqZero) ++ "s per question"
      if strContains (strLower (joinSp strengths)) (strLower ts) then strengths
      else if strengths.length < 3 then strengths ++ [ts]
      else setLast strengths ts
    else strengths
  let strengths := strengths.take 3
  -- weaknesses
  let weaknesses := extractStrings (jGetD aiF "weaknesses")
  let weaknesses := match weakest with
    | none => weaknesses
    | some w =>
      let first := w.name ++ ": low accuracy"
      match weaknesses with
      | [] => [first]
      | h :: _ =>
        if strContains (strLower h) (strLower w.name) then weaknesses
        else first :: weaknesses.filter (fun x => !x.isEmpty)
  let weaknesses := fillFromWeak accuracyLine weaknesses (weakTopics.take 3)
  let weaknesses :=
    if pace = "slow" ∧ timeTaken.isSome ∧ spq.isSome then
      let tw := "Too slow: " ++ qRepr (spq.getD pyqZero) ++ "s per question"
      if strContains (strLower (joinSp weaknesses)) (strLower tw) then weaknesses
      else if weaknesses.length < 3 then weaknesses ++ [tw]
      else setLast weaknesses tw
    else weaknesses
  let weaknesses := weaknesses ++
    List.replicate (3 - weaknesses.length) "Needs more practice consistency"
  let weaknesses := weaknesses.take 3
  -- growth areas
  let growth := extractStrings (jGetD aiF "growth_areas")
  let growth := match weakest with
    | none => growth
    | some w =>
      let mustFirst := w.name ++ ": practice daily"
      match growth with
      | [] => [mustFirst]
      | h :: _ =>
        if strContains (strLower h) (strLower w.name) then growth
        else mustFirst :: growth.filter (fun x => !x.isEmpty)
  let growth := fillFromWeak
    (fun t => t.name ++ ": improve by revising mistakes") growth
    (weakTopics.take 3)
  let growth := growth ++
    List.replicate (3 - growth.length) "Improve accuracy by checking answers"
  let growth := growth.take 3
  -- study tips
  let tips := extractStrings (jGetD aiF "study_tips")
  let tips := match weakest with
    | none => tips
    | some w =>
      if tips.any (fun t => strContains (strLower t) (strLower w.name)) then tips
      else ("Practice " ++ w.name ++ " 10 minutes daily") :: tips
  let tips := tips.take 3
  -- overall feedback
  let overall := ensureString (jGetD aiF "overall_feedback")
  let overall := if overall.isEmpty
    then "You made good progress and can improve with practice. Keep going!"
    else overall
  let overall := match timeTaken with
    | some tm =>
      if !strContains (strLower overall) "minute" &&
         !strContains (strLower overall) "time"
        then overall ++ " Time taken: " ++ qRepr tm ++ " minutes."
        else overall
    | none => overall
  let cta := ensureString (jGetD aiF "cta")
  let cta := if cta.isEmpty then "Pick one weak topic and practice it today." else cta
  let enc := ensureString (jGetD aiF "encouragement")
  let enc := if enc.isEmpty then
      "You can improve quickly with short daily practice. " ++
      "Focus on one topic at a time. " ++
      "Review mistakes and try again. " ++
      "You are getting better every week."
    else enc
  ⟨overall, coachItems, strengths, weaknesses, growth, tips, cta, enc⟩

/-! ### Placeholder feedback and `main` -/

def optIntJN : Option Int → JVal
  | some n => .jint n
  | none => .jnull

def optQJ : Option PyQ → JVal
  | some q => .jnum q
  | none => .jnull

def Topic'.toJVal (t : Topic') : JVal :=
  .jobj [("name", .jstr t.name), ("percentage", .jnum t.percentage),
         ("scored", .jnum t.scored), ("total", .jnum t.total),
         ("missed", .jnum t.missed)]

def Analysis.toJVal (a : Analysis) : JVal :=
  .jobj [("year_level", optIntJN a.yearLevel),
         ("overall_percentage", .jnum a.overallPercentage),
         ("accuracy", .jnum a.accuracy),
         ("grade", .jstr a.grade),
         ("time_taken_minutes", optQJ a.timeTakenMinutes),
         ("total_questions", .jint a.totalQuestions),
         ("seconds_per_question", optQJ a.secondsPerQuestion),
         ("pace", .jstr a.pace),
         ("high_performance_count", .jint a.highCount),
         ("low_performance_count", .jint a.lowCount),
         ("top_topics", .jarr (a.topTopics.map Topic'.toJVal)),
         ("weak_topics", .jarr (a.weakTopics.map Topic'.toJVal))]

def CoachItem.toJVal (c : CoachItem) : JVal :=
  .jobj [("insight", .jstr c.insight), ("reason", .jstr c.reason),
         ("action", .jstr c.action)]

def Feedback.toJVal (f : Feedback) : JVal :=
  .jobj [("overall_feedback", .jstr f.overallFeedback),
         ("coach", .jarr (f.coach.map CoachItem.toJVal)),
         ("strengths", .jarr (f.strengths.map JVal.jstr)),
         ("weaknesses", .jarr (f.weaknesses.map JVal.jstr)),
         ("growth_areas", .jarr (f.growthAreas.map JVal.jstr)),
         ("study_tips", .jarr (f.studyTips.map JVal.jstr)),
         ("cta", .jstr f.cta),
         ("encouragement", .jstr f.encouragement)]

/-- `placeholder_feedback` (`generatedAt` stands for
`datetime.now(timezone.utc).isoformat()`). -/
def placeholderFeedback (subject quizName modelName : String)
    (yearLevel : Option Int) (generatedAt : String) : JVal :=
  .jobj
    [("success", .jbool true),
     ("performance_analysis", .jobj
       [("year_level", optIntJN yearLevel),
        ("overall_percentage", .jint 0),
        ("accuracy", .jint 0),
        ("grade", .jstr ""),
        ("time_taken_minutes", .jnull),
        ("total_questions", .jint 0),
        ("seconds_per_question", .jnull),
        ("pace", .jstr "unknown"),
        ("high_performance_count", .jint 0),
        ("low_performance_count", .jint 0),
        ("top_topics", .jarr []),
        ("weak_topics", .jarr [])]),
     ("ai_feedback", .jobj
       [("overall_feedback", .jstr
          "Complete your first quiz to unlock insights. Timing will appear after attempts."),
        ("coach", .jarr
          [.jobj [("insight", .jstr "No completed attempt found yet."),
                  ("reason", .jstr "We need answers to identify strengths and weaknesses."),
                  ("action", .jstr "Try a short practice set for 5–10 minutes.")]]),
        ("strengths", .jarr []),
        ("weaknesses", .jarr []),
        ("growth_areas", .jarr []),
        ("study_tips", .jarr
          [.jstr "Start with a small set of questions",
           .jstr "Work in short focused sessions",
           .jstr "Review mistakes to learn faster"]),
        ("cta", .jstr "Take your first quiz to unlock your AI Coach!"),
        ("encouragement", .jstr
          "You are ready to start. One small step today is progress.")]),
     ("ai_feedback_meta", .jobj
       [("model", .jstr modelName),
        ("generated_at", .jstr generatedAt),
        ("subject", .jstr subject),
        ("quiz_name", .jstr quizName),
        ("year_level", optIntJN yearLevel),
        ("source", .jstr "subject_feedback/gemini_subject_feedback_fixed.py"),
        ("status", .jstr "done"),
        ("status_message", .jstr "Ready - awaiting first quiz attempt")])]

def errOut (e : String) : JVal :=
  .jobj [("success", .jbool false), ("error", .jstr e)]

/-- `main` of `subject_feedback/gemini_subject_feedback.py`, from the
parsed stdin payload to the printed object.  Parameters for the ambient
environment: `hasKey`/`modelName` are the environment variables,
`yearLevel` is the result of `infer_year_level` (a free-text inference
heuristic external to the core; the claims do not depend on its value),
`generatedAt` is the wall-clock timestamp, and `modelOutcome` is the
oracle for `generate_feedback` (model call + retry + JSON extraction):
`.ok v` its parsed object, `.error e` the exception it raised.  A non-dict
`payload`/`doc` or a truthy non-string quiz name crashes the Python script
before it prints; that unreachable-for-the-claims case is `jnull` here. -/
def mainModel (payload : JVal) (hasKey : Bool) (modelName : String)
    (yearLevel : Option Int) (generatedAt : String)
    (modelOutcome : Except String JVal) : JVal :=
  match payload with
  | .jobj pf =>
    match pyOr (jGetD pf "doc") (.jobj []) with
    | .jobj docF =>
      let qv := pyOr (jGetD docF "quiz_name") (pyOr (jGetD docF "quizName") (.jstr ""))
      if truthyNonStr qv then .jnull
      else
        let quizName := strOrEmpty qv
        let subject := inferSubjectFromQuizName quizName
        if subject = "Writing" then
          errOut "Writing assessments are handled separately"
        else
          match normalizeStudentData docF with
          | .error e => errOut e
          | .ok sd =>
            if !hasKey then
              errOut "GEMINI_API_KEY environment variable is required"
            else if isNoAttemptSession sd.topics then
              placeholderFeedback subject quizName modelName yearLevel generatedAt
            else
              let analysis := analyzePerformance sd docF yearLevel
              match modelOutcome with
              | .error e => errOut ("AI generation failed: " ++ e)
              | .ok raw =>
                let feedback := coerceAiFeedbackSchema raw analysis subject
                .jobj
                  [("success", .jbool true),
                   ("performance_analysis", analysis.toJVal),
                   ("ai_feedback", feedback.toJVal),
                   ("ai_feedback_meta", .jobj
                     [("model", .jstr modelName),
                      ("generated_at", .jstr generatedAt),
                      ("subject", .jstr subject),
                      ("quiz_name", .jstr quizName),
                      ("year_level", optIntJN yearLevel),
                      ("source", .jstr "subject_feedback/gemini_subject_feedback_fixed.py"),
                      ("status", .jstr "done"),
                      ("status_message", .jstr "Feedback generated successfully")])]
    | _ => .jnull
  | _ => .jnull

/-! ## Statement helpers (projections used to state the claims) -/

def jPath1 (v : JVal) (k : String) : Option JVal :=
  match v with
  | .jobj f => jGet f k
  | _ => none

def jPath2 (v : JVal) (k1 k2 : String) : Option JVal :=
  match jPath1 v k1 with
  | some w => jPath1 w k2
  | none => none

def jPath3 (v : JVal) (k1 k2 k3 : String) : Option JVal :=
  match jPath2 v k1 k2 with
  | some w => jPath1 w k3
  | none => none

def outPath2 (e : EvalOut) (k1 k2 : String) : Option JVal :=
  match e with
  | .success r => jPath2 r k1 k2
  | .failure _ => none

def outPath3 (e : EvalOut) (k1 k2 k3 : String) : Option JVal :=
  match e with
  | .success r => jPath3 r k1 k2 k3
  | .failure _ => none

def strLenAt (v : Option JVal) : Nat :=
  match v with
  | some (.jstr s) => s.data.length
  | _ => 0

/-! ## Theorems -/

theorem maxTotalOf_narrative : maxTotalOf "Narrative" = 50 := by decide

theorem maxTotalOf_persuasive : maxTotalOf "Persuasive" = 55 := by decide

theorem resolveTextType_cases (tto : Option String) (p w : String) :
    resolveTextType tto p w = "Narrative" ∨ resolveTextType tto p w = "Persuasive" := by
  unfold resolveTextType guessTextType
  cases tto <;> simp only [] <;> split
  · exact .inr rfl
  · exact .inl rfl
  · rename_i t h
    rcases h with h | h
    · exact .inl h
    · exact .inr h
  · exact .inl rfl

/-- For a positive maximum, `band_from_score` reduces to two integer
comparisons. -/
theorem roundPosRat_den_pos (a d : Nat) : 0 < (roundPosRat a d).den := by
  unfold roundPosRat
  split
  · exact Nat.one_pos
  · dsimp only
    split
    · split
      · exact Nat.one_pos
      · exact Nat.two_pow_pos _
    · split
      · exact Nat.one_pos
      · exact Nat.two_pow_pos _

theorem roundDouble_den_pos (q : PyQ) : 0 < (roundDouble q).den := by
  unfold roundDouble
  split
  · exact roundPosRat_den_pos _ _
  · exact roundPosRat_den_pos _ _

theorem PyQ.blt_toRat (a b : PyQ) (ha : 0 < a.den) (hb : 0 < b.den) :
    (PyQ.blt a b = true) ↔ a.toRat < b.toRat := by
  unfold PyQ.blt PyQ.toRat
  rw [decide_eq_true_eq]
  rw [div_lt_div_iff₀ (by exact_mod_cast ha) (by exact_mod_cast hb)]
  constructor
  · intro hx
    exact_mod_cast hx
  · intro hx
    exact_mod_cast hx

theorem bandFromScoreSpec_pos (total maxScore : Int) (h : 0 < maxScore) :
    bandFromScoreSpec total maxScore =
      (if total * 100 < 35 * maxScore then "Below Minimum Standard"
       else if total * 100 < 65 * maxScore then "At Minimum Standard"
       else "Above Minimum Standard") := by
  have h1 : ¬ maxScore ≤ 0 := not_le.mpr h
  have h2 : ¬ maxScore = 0 := by omega
  have h3 : ¬ maxScore < 0 := by omega
  simp only [bandFromScoreSpec, PyQ.blt, PyQ.div, PyQ.mul, PyQ.ofInt, if_neg h1,
    if_neg h2, if_neg h3, decide_eq_true_eq]
  split
  next hc =>
    rw [if_pos (show total * 100 < 35 * maxScore by omega)]
  next hc =>
    rw [if_neg (show ¬ total * 100 < 35 * maxScore by omega)]
    split
    next hc2 =>
      rw [if_pos (show total * 100 < 65 * maxScore by omega)]
    next hc2 =>
      rw [if_neg (show ¬ total * 100 < 65 * maxScore by omega)]

set_option maxHeartbeats 16000000 in
/-- **C4** (amended).  `max ≤ 0` gives "Below Minimum Standard"; otherwise
the thresholds 35/65 are applied to the binary64-computed percentage
`float(float(total/max) · 100)` (both boundaries inclusive-upper on that
computed value); on the rubric domain `0 ≤ total ≤ max ∈ {50, 55}` the
result coincides with the spec's exact-percentage reading, which is the
stated `<35 / [35,65) / ≥65` classification of `total/max × 100`.  The
exact reading is *not* valid for all integers: floating-point rounding can
carry a percentage strictly below 35 onto the boundary (see the
counterexample). -/
theorem C4_band_from_score (total maxScore : Int) :
    (maxScore ≤ 0 → bandFromScore total maxScore = "Below Minimum Standard") ∧
    (0 < maxScore →
      ((bandFromScore total maxScore = "Below Minimum Standard" ↔
        (flMul (flDiv (PyQ.ofInt total) (PyQ.ofInt maxScore))
          (PyQ.ofInt 100)).toRat < 35) ∧
       (bandFromScore total maxScore = "At Minimum Standard" ↔
        35 ≤ (flMul (flDiv (PyQ.ofInt total) (PyQ.ofInt maxScore))
            (PyQ.ofInt 100)).toRat ∧
          (flMul (flDiv (PyQ.ofInt total) (PyQ.ofInt maxScore))
            (PyQ.ofInt 100)).toRat < 65) ∧
       (bandFromScore total maxScore = "Above Minimum Standard" ↔
        65 ≤ (flMul (flDiv (PyQ.ofInt total) (PyQ.ofInt maxScore))
          (PyQ.ofInt 100)).toRat))) ∧
    (0 ≤ total → total ≤ maxScore → maxScore = 50 ∨ maxScore = 55 →
      bandFromScore total maxScore = bandFromScoreSpec total maxScore) ∧
    (0 < maxScore →
      ((bandFromScoreSpec total maxScore = "Below Minimum Standard" ↔
        (total : ℚ) / (maxScore : ℚ) * 100 < 35) ∧
       (bandFromScoreSpec total maxScore = "At Minimum Standard" ↔
        35 ≤ (total : ℚ) / (maxScore : ℚ) * 100 ∧
          (total : ℚ) / (maxScore : ℚ) * 100 < 65) ∧
       (bandFromScoreSpec total maxScore = "Above Minimum Standard" ↔
        65 ≤ (total : ℚ) / (maxScore : ℚ) * 100))) := by
  refine ⟨?_, ?_, ?_, ?_⟩
  · intro h
    simp only [bandFromScore, if_pos h]
  · intro h
    have h1 : ¬ maxScore ≤ 0 := not_le.mpr h
    have hden : 0 < (flMul (flDiv (PyQ.ofInt total) (PyQ.ofInt maxScore))
        (PyQ.ofInt 100)).den := roundDouble_den_pos _
    have h35v : (PyQ.ofInt 35).toRat = 35 := by
      norm_num [PyQ.toRat, PyQ.ofInt]
    have h65v : (PyQ.ofInt 65).toRat = 65 := by
      norm_num [PyQ.toRat, PyQ.ofInt]
    have hb35 := PyQ.blt_toRat (flMul (flDiv (PyQ.ofInt total)
      (PyQ.ofInt maxScore)) (PyQ.ofInt 100)) (PyQ.ofInt 35) hden Nat.one_pos
    have hb65 := PyQ.blt_toRat (flMul (flDiv (PyQ.ofInt total)
      (PyQ.ofInt maxScore)) (PyQ.ofInt 100)) (PyQ.ofInt 65) hden Nat.one_pos
    rw [h35v] at hb35
    rw [h65v] at hb65
    simp only [bandFromScore, if_neg h1]
    by_cases hc : PyQ.blt (flMul (flDiv (PyQ.ofInt total) (PyQ.ofInt maxScore))
        (PyQ.ofInt 100)) (PyQ.ofInt 35) = true
    · rw [if_pos hc]
      have hlt := hb35.mp hc
      exact ⟨⟨fun _ => hlt, fun _ => rfl⟩,
        ⟨fun hx => absurd hx (by decide),
         fun hx => absurd hlt (not_lt.mpr hx.1)⟩,
        ⟨fun hx => absurd hx (by decide),
         fun hx => absurd hlt (not_lt.mpr (le_trans (by norm_num) hx))⟩⟩
    · rw [if_neg hc]
      have hge : 35 ≤ (flMul (flDiv (PyQ.ofInt total) (PyQ.ofInt maxScore))
          (PyQ.ofInt 100)).toRat := not_lt.mp (fun hx => hc (hb35.mpr hx))
      by_cases hc2 : PyQ.blt (flMul (flDiv (PyQ.ofInt total)
          (PyQ.ofInt maxScore)) (PyQ.ofInt 100)) (PyQ.ofInt 65) = true
      · rw [if_pos hc2]
        have hlt65 := hb65.mp hc2
        exact ⟨⟨fun hx => absurd hx (by decide),
           fun hx => absurd hge (not_le.mpr hx)⟩,
          ⟨fun _ => ⟨hge, hlt65⟩, fun _ => rfl⟩,
          ⟨fun hx => absurd hx (by decide),
           fun hx => absurd hlt65 (not_lt.mpr hx)⟩⟩
      · rw [if_neg hc2]
        have hge65 : 65 ≤ (flMul (flDiv (PyQ.ofInt total)
            (PyQ.ofInt maxScore)) (PyQ.ofInt 100)).toRat :=
          not_lt.mp (fun hx => hc2 (hb65.mpr hx))
        exact ⟨⟨fun hx => absurd hx (by decide),
           fun hx => absurd hge65 (not_le.mpr (lt_of_lt_of_le hx (by norm_num)))⟩,
          ⟨fun hx => absurd hx (by decide),
           fun hx => absurd hge65 (not_le.mpr hx.2)⟩,
          ⟨fun _ => hge65, fun _ => rfl⟩⟩
  · intro h0 h1 h2
    rcases h2 with h2 | h2 <;> subst h2
    · interval_cases total <;> decide
    · interval_cases total <;> decide
  · intro h
    have hq : (0 : ℚ) < (maxScore : ℚ) := by exact_mod_cast h
    have b35 : total * 100 < 35 * maxScore ↔
        (total : ℚ) / (maxScore : ℚ) * 100 < 35 := by
      rw [div_mul_eq_mul_div, div_lt_iff₀ hq]
      constructor
      · intro hx
        have hx2 : ((total * 100 : Int) : ℚ) < ((35 * maxScore : Int) : ℚ) := by
          exact_mod_cast hx
        push_cast at hx2
        linarith
      · intro hx
        have hx2 : ((total * 100 : Int) : ℚ) < ((35 * maxScore : Int) : ℚ) := by
          push_cast
          linarith
        exact_mod_cast hx2
    have b65 : total * 100 < 65 * maxScore ↔
        (total : ℚ) / (maxScore : ℚ) * 100 < 65 := by
      rw [div_mul_eq_mul_div, div_lt_iff₀ hq]
      constructor
      · intro hx
        have hx2 : ((total * 100 : Int) : ℚ) < ((65 * maxScore : Int) : ℚ) := by
          exact_mod_cast hx
        push_cast at hx2
        linarith
      · intro hx
        have hx2 : ((total * 100 : Int) : ℚ) < ((65 * maxScore : Int) : ℚ) := by
          push_cast
          linarith
        exact_mod_cast hx2
    rw [bandFromScoreSpec_pos total maxScore h]
    by_cases h35 : total * 100 < 35 * maxScore
    · have hlt := b35.mp h35
      simp only [if_pos h35]
      exact ⟨by simp [hlt], ⟨fun hx => absurd hx (by decide),
        fun hx => absurd hlt (not_lt.mpr hx.1)⟩,
        ⟨fun hx => absurd hx (by decide),
         fun hx => absurd hlt (not_lt.mpr (by linarith))⟩⟩
    · have hge : 35 ≤ (total : ℚ) / (maxScore : ℚ) * 100 :=
        not_lt.mp (fun hx => h35 (b35.mpr hx))
      simp only [if_neg h35]
      by_cases h65 : total * 100 < 65 * maxScore
      · have hlt := b65.mp h65
        simp only [if_pos h65]
        exact ⟨⟨fun hx => absurd hx (by decide), fun hx => absurd hge (not_le.mpr hx)⟩,
          by simp [hge, hlt],
          ⟨fun hx => absurd hx (by decide),
           fun hx => absurd hlt (not_lt.mpr hx)⟩⟩
      · have hge65 : 65 ≤ (total : ℚ) / (maxScore : ℚ) * 100 :=
          not_lt.mp (fun hx => h65 (b65.mpr hx))
        simp only [if_neg h65]
        exact ⟨⟨fun hx => absurd hx (by decide),
           fun hx => absurd hge65 (not_le.mpr (by linarith))⟩,
          ⟨fun hx => absurd hx (by decide), fun hx => absurd hge65 (not_le.mpr hx.2)⟩,
          by simp [hge65]⟩
/-- Counterexample to C4 as stated: at `total = 34999999999999997`,
`max = 10^17` the exact percentage is `34.999999999999997 < 35`, yet
CPython's float arithmetic rounds `(total / max) * 100.0` to exactly
`35.0` and the program returns "At Minimum Standard" — the spec's exact
reading (which yields "Below Minimum Standard") disagrees with the
program inside the claim's quantified domain. -/
theorem C4_counterexample :
    bandFromScore 34999999999999997 (10 ^ 17) = "At Minimum Standard" ∧
    (34999999999999997 : ℚ) / 10 ^ 17 * 100 < 35 ∧
    bandFromScoreSpec 34999999999999997 (10 ^ 17) = "Below Minimum Standard" := by
  refine ⟨by decide, by norm_num, by decide⟩

/-- **C10.** The blank-input check precedes the credential check: a blank
(after cleaning) submission yields `success:true` for any `hasKey`, and the
only reachable top-level failure is the missing-key failure, which requires
a non-blank submission. -/
theorem C10_blank_precedes_key (studentYear : Int)
    (writingPrompt studentWriting : String) (textType : Option String)
    (hasKey : Bool) (o : Except String JVal) :
    (isBlank (cleanedForChecks studentWriting) = true →
      ∃ r, evaluateNaplanWriting studentYear writingPrompt studentWriting
        textType hasKey o = .success r) ∧
    (∀ e, evaluateNaplanWriting studentYear writingPrompt studentWriting
        textType hasKey o = .failure e →
      isBlank (cleanedForChecks studentWriting) = false ∧ hasKey = false ∧
        e = "GEMINI_API_KEY is not set in environment.") := by
  constructor
  · intro hb
    simp only [evaluateNaplanWriting, hb, if_true]
    cases baseOutputShape studentYear
        (resolveTextType textType writingPrompt studentWriting)
        (maxTotalOf (resolveTextType textType writingPrompt studentWriting)) <;>
      exact ⟨_, rfl⟩
  · intro e he
    by_cases hb : isBlank (cleanedForChecks studentWriting)
    · simp only [evaluateNaplanWriting, hb, if_true] at he
      split at he <;> simp at he
    · simp only [evaluateNaplanWriting, hb, Bool.false_eq_true, if_false] at he
      cases hasKey
      · simp only [Bool.not_false, if_true, EvalOut.failure.injEq] at he
        exact ⟨by simpa using hb, rfl, he.symm⟩
      · exfalso
        simp only [Bool.not_true, Bool.false_eq_true, if_false] at he
        by_cases hw : countWords (cleanedForChecks studentWriting) < MIN_AI_WORDS
        · simp only [hw, if_true] at he
          split at he <;> simp at he
        · simp only [hw, if_false] at he
          split at he <;> simp at he

/-- Witness for C10: a blank submission with no key configured still
succeeds, and the failure output for a non-blank submission without a key
carries the exact error string. -/
theorem C10_witness :
    isBlank (cleanedForChecks "") = true ∧
    (∃ r, evaluateNaplanWriting 5 "prompt" "" none false (.error "x") =
      .success r) := by
  refine ⟨by decide, ?_⟩
  exact (C10_blank_precedes_key 5 "prompt" "" none false (.error "x")).1 (by decide)

/-- **C9** (amended).  For blank (after cleaning) writing the result is
`success:true` with `valid_response = false`, the fixed off-topic
relevance block, the fixed summary, and `max_score` equal to 50 when the
resolved text type is Narrative but 55 when it is Persuasive — with no
explicit `text_type`, `guess_text_type` reads the writing *prompt* too, so
a persuasive-sounding prompt yields 55 even for blank writing; the spec's
own example (empty prompt) yields Narrative and 50. -/
theorem C9_blank_result (studentYear : Int)
    (writingPrompt studentWriting : String) (hasKey : Bool)
    (o : Except String JVal)
    (hb : isBlank (cleanedForChecks studentWriting) = true) :
    ∃ r, evaluateNaplanWriting studentYear writingPrompt studentWriting none
        hasKey o = .success r ∧
      jPath2 r "meta" "valid_response" = some (.jbool false) ∧
      jPath2 r "meta" "prompt_relevance" =
        some (prOffTopic "No student writing provided.") ∧
      jPath2 r "overall" "summary" =
        some (.jstr "No writing was provided for assessment.") ∧
      jPath2 r "overall" "max_score" = some (.jint
        (if resolveTextType none writingPrompt studentWriting = "Persuasive"
         then 55 else 50)) := by
  simp only [evaluateNaplanWriting, hb, if_true]
  rcases resolveTextType_cases none writingPrompt studentWriting with ht | ht <;>
    rw [ht] <;> exact ⟨_, rfl, rfl, rfl, rfl, rfl⟩

/-- Witness for C9: empty prompt and writing (the spec's example):
Narrative default, `max_score` 50. -/
theorem C9_witness :
    isBlank (cleanedForChecks "") = true ∧
    (∃ r, evaluateNaplanWriting 5 "" "" none false (.error "x") = .success r ∧
      jPath2 r "meta" "valid_response" = some (.jbool false) ∧
      jPath2 r "meta" "prompt_relevance" =
        some (prOffTopic "No student writing provided.") ∧
      jPath2 r "overall" "summary" =
        some (.jstr "No writing was provided for assessment.") ∧
      jPath2 r "overall" "max_score" = some (.jint
        (if resolveTextType none "" "" = "Persuasive" then 55 else 50))) :=
  ⟨by decide, C9_blank_result 5 "" "" false (.error "x") (by decide)⟩

/-- Counterexample for C9 as stated: blank writing with the prompt
`"convince"` guesses Persuasive, so `overall.max_score` is 55, not the
claimed 50. -/
theorem C9_counterexample :
    outPath2 (evaluateNaplanWriting 5 "convince" "" none false (.error "x"))
      "overall" "max_score" = some (.jint 55) ∧ (55 : Int) ≠ 50 := by
  exact ⟨rfl, by decide⟩

theorem dropWhile_length_le (p : Char → Bool) (l : List Char) :
    (l.dropWhile p).length ≤ l.length := by
  induction l with
  | nil => simp
  | cons a t ih => by_cases h : p a <;> simp [List.dropWhile_cons, h] <;> omega

theorem pyStrip_length_le (l : List Char) : (pyStrip l).length ≤ l.length := by
  unfold pyStrip
  calc ((l.dropWhile pyIsSpace).reverse.dropWhile pyIsSpace).reverse.length
      = ((l.dropWhile pyIsSpace).reverse.dropWhile pyIsSpace).length := by
        rw [List.length_reverse]
    _ ≤ (l.dropWhile pyIsSpace).reverse.length := dropWhile_length_le _ _
    _ = (l.dropWhile pyIsSpace).length := by rw [List.length_reverse]
    _ ≤ l.length := dropWhile_length_le _ _

theorem dropFromLastSpace_length_le (l : List Char) :
    (dropFromLastSpace l).length ≤ l.length := by
  unfold dropFromLastSpace
  calc (((l.reverse.dropWhile (fun c => c ≠ ' ')).drop 1)).reverse.length
      = ((l.reverse.dropWhile (fun c => c ≠ ' ')).drop 1).length := by
        rw [List.length_reverse]
    _ ≤ (l.reverse.dropWhile (fun c => c ≠ ' ')).length := by
        rw [List.length_drop]; omega
    _ ≤ l.reverse.length := dropWhile_length_le _ _
    _ = l.length := by rw [List.length_reverse]

/-- The truncation of `sanitize_text` can exceed the cap by the appended
ellipsis, but never by more: the output length is at most `maxLen + 3`. -/
theorem sanitizeText_length_le (s : String) (m : Nat) :
    (sanitizeText s (some m)).data.length ≤ m + 3 := by
  unfold sanitizeText
  simp only []
  split
  · next h =>
    unfold truncateSan
    have hcut : ((sanitizeCore s).data.take m).length ≤ m := by
      simpa using List.length_take_le m (sanitizeCore s).data
    have hmid : (if ((sanitizeCore s).data.take m).contains ' '
        then pyStrip (dropFromLastSpace ((sanitizeCore s).data.take m))
        else pyStrip ((sanitizeCore s).data.take m)).length ≤ m := by
      split
      · exact le_trans (le_trans (pyStrip_length_le _)
          (dropFromLastSpace_length_le _)) hcut
      · exact le_trans (pyStrip_length_le _) hcut
    calc (pyStrip (_ ++ ['.', '.', '.'])).length
        ≤ (_ ++ ['.', '.', '.']).length := pyStrip_length_le _
      _ ≤ m + 3 := by
        rw [List.length_append]
        exact Nat.add_le_add_right hmid 3
  · next h =>
    omega

/-- A 25-word, non-blank test submission. -/
def wordsTest : String := joinWith " " (List.replicate 25 "word")

/-- An exception message of 300 characters and no spaces. -/
def longErr : String := String.mk (List.replicate 300 'a')

/-- **C2** (amended).  When the model call / JSON extraction raises (oracle
outcome `.error e`) on a non-blank, long-enough submission, the function
still returns `success:true` with: `valid_response = false`, the generic
failure message, `error_detail = sanitize_text(str(e), 260)` — whose
length is at most 263, not 260, because the truncation appends an ellipsis
— `word_count_feedback` present, and the *base-shape* relevance
placeholder `\x7bscore 0, verdict "off_topic", note "", evidence ""\x7d`
(an off-topic placeholder, not a neutral one). -/
theorem C2_model_failed (studentYear : Int) (writingPrompt studentWriting : String)
    (textType : Option String) (e : String)
    (hb : isBlank (cleanedForChecks studentWriting) = false)
    (hw : ¬ countWords (cleanedForChecks studentWriting) < MIN_AI_WORDS) :
    ∃ r, evaluateNaplanWriting studentYear writingPrompt studentWriting
        textType true (.error e) = .success r ∧
      jPath2 r "meta" "valid_response" = some (.jbool false) ∧
      jPath2 r "meta" "message" = some (.jstr "AI evaluation failed.") ∧
      jPath2 r "meta" "error_detail" = some (.jstr (sanitizeText e (some 260))) ∧
      (sanitizeText e (some 260)).data.length ≤ 263 ∧
      jPath2 r "meta" "word_count_feedback" = some (generateWordCountFeedback
        studentYear (countWords (cleanedForChecks studentWriting))).toJVal ∧
      jPath2 r "meta" "prompt_relevance" = some (prOffTopic "") ∧
      jPath2 r "overall" "summary" =
        some (.jstr "Prompt relevance was checked, but full assessment failed.") := by
  simp only [evaluateNaplanWriting, hb, Bool.false_eq_true, if_false,
    Bool.not_true, hw]
  exact ⟨_, rfl, rfl, rfl, rfl, sanitizeText_length_le e 260, rfl, rfl, rfl⟩

/-- Witness for C2 at a concrete 25-word submission and error text. -/
theorem C2_witness :
    isBlank (cleanedForChecks wordsTest) = false ∧
    ¬ countWords (cleanedForChecks wordsTest) < MIN_AI_WORDS ∧
    (∃ r, evaluateNaplanWriting 5 "prompt" wordsTest none true (.error "boom") =
        .success r ∧
      jPath2 r "meta" "valid_response" = some (.jbool false) ∧
      jPath2 r "meta" "message" = some (.jstr "AI evaluation failed.") ∧
      jPath2 r "meta" "error_detail" = some (.jstr (sanitizeText "boom" (some 260))) ∧
      (sanitizeText "boom" (some 260)).data.length ≤ 263 ∧
      jPath2 r "meta" "word_count_feedback" = some (generateWordCountFeedback
        5 (countWords (cleanedForChecks wordsTest))).toJVal ∧
      jPath2 r "meta" "prompt_relevance" = some (prOffTopic "") ∧
      jPath2 r "overall" "summary" =
        some (.jstr "Prompt relevance was checked, but full assessment failed.")) :=
  ⟨by decide, by decide,
   C2_model_failed 5 "prompt" wordsTest none "boom" (by decide) (by decide)⟩

/-- Counterexample for C2 as stated: a 300-character spaceless exception
message yields an `error_detail` of 263 characters (the claim says at most
260), and the relevance placeholder's verdict is `"off_topic"` (the claim
says it is not off-topic-biased). -/
theorem C2_counterexample :
    strLenAt (outPath2 (evaluateNaplanWriting 5 "prompt" wordsTest none true
      (.error longErr)) "meta" "error_detail") = 263 ∧
    ¬ ((263 : Nat) ≤ 260) ∧
    outPath3 (evaluateNaplanWriting 5 "prompt" wordsTest none true
      (.error longErr)) "meta" "prompt_relevance" "verdict" =
      some (.jstr "off_topic") := by
  exact ⟨rfl, by decide, rfl⟩

/-- The first-`\x7b`-to-last-`\x7d` substring a brace-fallback parse would
attempt (`none` when no such nonempty span exists): the fallback stage of
both extractors, named so the failure condition can be stated. -/
def braceCandidate (t : String) : Option String :=
  match t.data.findIdx? (· == '{'), t.data.reverse.findIdx? (· == '}') with
  | some start, some rev =>
    let stop := t.data.length - 1 - rev
    if stop ≤ start then none
    else some (String.mk ((t.data.drop start).take (stop + 1 - start)))
  | _, _ => none

theorem jsonLoads_of_nil (s : String) (h : s.data = []) : jsonLoads s = none := by
  unfold jsonLoads
  rw [h]
  rfl

/-- **C7** (amended).  `extract_json` attempts a direct parse and then the
first-`\x7b`-to-last-`\x7d` substring — it has *no* fenced-block step (a
fenced object still succeeds only because the fallback spans the fences);
it fails exactly when the direct parse fails and the brace fallback is
absent or fails (in particular on empty text).  `safe_json_from_text`
strips fenced content *before* any parse attempt.  The spec's three
examples hold for both extractors. -/
theorem C7_json_extractors (t : String) (v : JVal) :
    (jsonLoads (pyStripStr t) = some v → extractJson t = .ok v) ∧
    ((extractJson t).toOption = none ↔
      (jsonLoads (pyStripStr t) = none ∧
       (braceCandidate (pyStripStr t)).bind jsonLoads = none)) ∧
    extractJson "```json\n\x7b\"a\":1\x7d\n```" = .ok (.jobj [("a", .jint 1)]) ∧
    extractJson "prefix \x7b\"a\":1\x7d suffix" = .ok (.jobj [("a", .jint 1)]) ∧
    (extractJson "").toOption = none ∧
    safeJsonFromText "```json\n\x7b\"a\":1\x7d\n```" = .ok (.jobj [("a", .jint 1)]) ∧
    safeJsonFromText "prefix \x7b\"a\":1\x7d suffix" = .ok (.jobj [("a", .jint 1)]) ∧
    (safeJsonFromText "").toOption = none := by
  refine ⟨?_, ?_, rfl, rfl, rfl, rfl, rfl, rfl⟩
  · intro h
    by_cases he : (pyStripStr t).data.isEmpty
    · exact absurd h (by
        rw [jsonLoads_of_nil _ (List.isEmpty_iff.mp he)]
        simp)
    · simp only [extractJson, he, Bool.false_eq_true, if_false, h]
  · by_cases he : (pyStripStr t).data.isEmpty
    · have hd : (pyStripStr t).data = [] := List.isEmpty_iff.mp he
      have hl := jsonLoads_of_nil _ hd
      simp [extractJson, braceCandidate, he, hd, hl, Except.toOption]
    · cases hl : jsonLoads (pyStripStr t) with
      | some w => simp [extractJson, he, hl, Except.toOption]
      | none =>
        simp only [extractJson, braceCandidate, he, Bool.false_eq_true,
          if_false, hl, true_and]
        cases hf : (pyStripStr t).data.findIdx? (· == '{') with
        | none =>
          cases hr : (pyStripStr t).data.reverse.findIdx? (· == '}') with
          | none => simp [Except.toOption]
          | some rev => simp [Except.toOption]
        | some start =>
          cases hr : (pyStripStr t).data.reverse.findIdx? (· == '}') with
          | none => simp [Except.toOption]
          | some rev =>
            dsimp only
            by_cases hst : (pyStripStr t).data.length - 1 - rev ≤ start
            · rw [if_pos hst, if_pos hst]
              simp [Except.toOption]
            · rw [if_neg hst, if_neg hst]
              cases hc : jsonLoads (String.mk (((pyStripStr t).data.drop start).take
                  ((pyStripStr t).data.length - 1 - rev + 1 - start))) with
              | some w =>
                simp [hc, Except.toOption]
                exact fun hcon => Option.noConfusion (hc.symm.trans hcon)
              | none =>
                simp [hc, Except.toOption]
                exact hc

/-- Witness for C7: the direct-parse clause applied to a prose-wrapped
object (parse fails), and the failure characterization applied at the
empty string. -/
theorem C7_witness :
    jsonLoads (pyStripStr "  \x7b\"a\":1\x7d ") = some (.jobj [("a", .jint 1)]) ∧
    extractJson "  \x7b\"a\":1\x7d " = .ok (.jobj [("a", .jint 1)]) :=
  ⟨rfl, (C7_json_extractors "  \x7b\"a\":1\x7d " (.jobj [("a", .jint 1)])).1 rfl⟩

/-- Counterexample for C7 as stated: on `"```\nnot json\n```\n\x7b\"a\":1\x7d"`
the fence-first extractor `safe_json_from_text` fails even though the text
contains the parseable balanced object `\x7b"a":1\x7d` (refuting "fails
exactly when the text is empty or no balanced object can be parsed"),
while `extract_json` succeeds on the same text without any fence step —
the claimed algorithm (direct parse, then fenced retry) would fail here,
since the fenced content is "not json". -/
theorem C7_counterexample :
    (safeJsonFromText "```\nnot json\n```\n\x7b\"a\":1\x7d").toOption = none ∧
    jsonLoads "\x7b\"a\":1\x7d" = some (.jobj [("a", .jint 1)]) ∧
    extractJson "```\nnot json\n```\n\x7b\"a\":1\x7d" = .ok (.jobj [("a", .jint 1)]) :=
  ⟨rfl, rfl, rfl⟩

/-! ### Dict lemmas and string-stability (for C6) -/

theorem jGet_dictSet (f : List (String × JVal)) (k k' : String) (v : JVal) :
    jGet (dictSet f k v) k' = if k = k' then some v else jGet f k' := by
  induction f with
  | nil =>
    by_cases h : k = k' <;> simp [dictSet, jGet, h]
  | cons kv rest ih =>
    obtain ⟨a, b⟩ := kv
    by_cases h1 : a = k
    · subst h1
      by_cases h2 : a = k'
      · subst h2
        simp [dictSet, jGet]
      · simp [dictSet, jGet, h2]
    · simp only [dictSet, if_neg h1]
      by_cases h2 : a = k'
      · subst h2
        rw [if_neg (fun hk => h1 hk.symm)]
        simp [jGet]
      · simp [jGet, h2, ih]

theorem jGet_dictSet_self (f : List (String × JVal)) (k : String) (v : JVal) :
    jGet (dictSet f k v) k = some v := by
  simp [jGet_dictSet]

theorem jGet_dictSet_ne (f : List (String × JVal)) (k k' : String) (v : JVal)
    (h : k ≠ k') : jGet (dictSet f k v) k' = jGet f k' := by
  simp [jGet_dictSet, h]

theorem dictSet_eq_self (f : List (String × JVal)) (k : String) (v : JVal)
    (h : jGet f k = some v) : dictSet f k v = f := by
  induction f with
  | nil => simp [jGet] at h
  | cons kv rest ih =>
    obtain ⟨a, b⟩ := kv
    by_cases h1 : a = k
    · subst h1
      have hb : b = v := by simpa [jGet] using h
      subst hb
      simp [dictSet]
    · simp only [jGet, if_neg h1] at h
      simp [dictSet, h1, ih h]

theorem jGet_mem (f : List (String × JVal)) (k : String) (v : JVal)
    (h : jGet f k = some v) : (k, v) ∈ f := by
  induction f with
  | nil => simp [jGet] at h
  | cons kv rest ih =>
    obtain ⟨a, b⟩ := kv
    by_cases h1 : a = k
    · subst h1
      have hb : b = v := by simpa [jGet] using h
      subst hb
      exact List.mem_cons_self _ _
    · simp only [jGet, if_neg h1] at h
      exact List.mem_cons_of_mem _ (ih h)

/-- A string the sanitizer leaves unchanged at each of the three caps used
by the review-section shaper (80 for titles, 200 for string items, 260 for
dict-item values). -/
def stableStr (s : String) : Bool :=
  (sanitizeText s (some 80) == s) && (sanitizeText s (some 200) == s) &&
    (sanitizeText s (some 260) == s)

mutual
/-- Every string occurring in the value satisfies `p`. -/
def allStrs (p : String → Bool) : JVal → Bool
  | .jstr s => p s
  | .jarr xs => allStrsList p xs
  | .jobj fs => allStrsFields p fs
  | _ => true

def allStrsList (p : String → Bool) : List JVal → Bool
  | [] => true
  | v :: rest => allStrs p v && allStrsList p rest

def allStrsFields (p : String → Bool) : List (String × JVal) → Bool
  | [] => true
  | kv :: rest => allStrs p kv.2 && allStrsFields p rest
end

theorem allStrsList_mem (p : String → Bool) (xs : List JVal) (v : JVal)
    (hall : allStrsList p xs = true) (hmem : v ∈ xs) : allStrs p v = true := by
  induction xs with
  | nil => simp at hmem
  | cons x rest ih =>
    simp only [allStrsList, Bool.and_eq_true] at hall
    rcases List.mem_cons.mp hmem with h | h
    · exact h ▸ hall.1
    · exact ih hall.2 h

theorem allStrsFields_mem (p : String → Bool) (fs : List (String × JVal))
    (k : String) (v : JVal) (hall : allStrsFields p fs = true)
    (hmem : (k, v) ∈ fs) : allStrs p v = true := by
  induction fs with
  | nil => simp at hmem
  | cons kv rest ih =>
    simp only [allStrsFields, Bool.and_eq_true] at hall
    rcases List.mem_cons.mp hmem with h | h
    · rw [← h] at hall
      exact hall.1
    · exact ih hall.2 h

theorem allStrs_jGet (p : String → Bool) (fs : List (String × JVal))
    (k : String) (v : JVal) (hall : allStrsFields p fs = true)
    (h : jGet fs k = some v) : allStrs p v = true :=
  allStrsFields_mem p fs k v hall (jGet_mem fs k v h)

theorem stableStr_80 (s : String) (h : stableStr s = true) :
    sanitizeText s (some 80) = s := by
  simp only [stableStr, Bool.and_eq_true, beq_iff_eq] at h
  exact h.1.1

theorem stableStr_200 (s : String) (h : stableStr s = true) :
    sanitizeText s (some 200) = s := by
  simp only [stableStr, Bool.and_eq_true, beq_iff_eq] at h
  exact h.1.2

theorem stableStr_260 (s : String) (h : stableStr s = true) :
    sanitizeText s (some 260) = s := by
  simp only [stableStr, Bool.and_eq_true, beq_iff_eq] at h
  exact h.2

theorem dictSet_dictSet (f : List (String × JVal)) (k : String) (v w : JVal) :
    dictSet (dictSet f k v) k w = dictSet f k w := by
  induction f with
  | nil => simp [dictSet]
  | cons kv rest ih =>
    obtain ⟨a, b⟩ := kv
    by_cases h : a = k
    · subst h
      simp [dictSet]
    · simp [dictSet, h, ih]

theorem buildById_foldl_mem (sections : List JVal)
    (acc : List (String × JVal)) (k : String) (v : JVal)
    (h : jGet (sections.foldl byIdStep acc) k = some v) :
    jGet acc k = some v ∨
      ∃ fs, v = .jobj fs ∧ JVal.jobj fs ∈ sections ∧
        jGet fs "id" = some (.jstr k) := by
  induction sections generalizing acc with
  | nil => exact .inl h
  | cons s rest ih =>
    rcases ih (byIdStep acc s) h with h' | ⟨fs, hv, hmem, hid⟩
    · cases s with
      | jobj fs =>
        simp only [byIdStep] at h'
        cases hid : jGet fs "id" with
        | none =>
          rw [hid] at h'
          exact .inl h'
        | some idv =>
          cases idv with
          | jstr i =>
            rw [hid] at h'
            rw [jGet_dictSet] at h'
            by_cases hik : i = k
            · subst hik
              rw [if_pos rfl] at h'
              exact .inr ⟨fs, (Option.some.injEq _ _).mp h'.symm ▸ rfl,
                List.mem_cons_self _ _, hid⟩
            · rw [if_neg hik] at h'
              exact .inl h'
          | jnull => rw [hid] at h'; exact .inl h'
          | jbool b => rw [hid] at h'; exact .inl h'
          | jint n => rw [hid] at h'; exact .inl h'
          | jnum q => rw [hid] at h'; exact .inl h'
          | jarr xs => rw [hid] at h'; exact .inl h'
          | jobj g => rw [hid] at h'; exact .inl h'
      | jnull => exact .inl h'
      | jbool b => exact .inl h'
      | jint n => exact .inl h'
      | jnum q => exact .inl h'
      | jstr s => exact .inl h'
      | jarr xs => exact .inl h'
    · exact .inr ⟨fs, hv, List.mem_cons_of_mem _ hmem, hid⟩

theorem buildById_mem (sections : List JVal) (k : String) (v : JVal)
    (h : jGet (buildById sections) k = some v) :
    ∃ fs, v = .jobj fs ∧ JVal.jobj fs ∈ sections ∧
      jGet fs "id" = some (.jstr k) := by
  rcases buildById_foldl_mem sections [] k v h with h' | h'
  · simp [jGet] at h'
  · exact h'

theorem sanitizeItem_of_stable (x : JVal) (h : allStrs stableStr x = true) :
    sanitizeItem x = some x ∨ sanitizeItem x = none := by
  cases x with
  | jstr s =>
    left
    simp only [sanitizeItem, allStrs] at *
    rw [stableStr_200 s h]
  | jobj kvs =>
    left
    simp only [sanitizeItem, allStrs] at *
    congr 1
    congr 1
    induction kvs with
    | nil => rfl
    | cons kv rest ih =>
      simp only [allStrsFields, Bool.and_eq_true] at h
      simp only [List.map_cons]
      rw [ih h.2]
      obtain ⟨a, b⟩ := kv
      cases b with
      | jstr s =>
        simp only [allStrs] at h
        simp [stableStr_260 s h.1]
      | jnull => rfl
      | jbool bb => rfl
      | jint n => rfl
      | jnum q => rfl
      | jarr xs => rfl
      | jobj g => rfl
  | jnull => right; rfl
  | jbool b => right; rfl
  | jint n => right; rfl
  | jnum q => right; rfl
  | jarr xs => right; rfl

theorem filterMap_sanitizeItem_idem (l : List JVal)
    (h : ∀ x ∈ l, allStrs stableStr x = true) :
    (l.filterMap sanitizeItem).filterMap sanitizeItem =
      l.filterMap sanitizeItem := by
  induction l with
  | nil => rfl
  | cons x rest ih =>
    have hx := h x (List.mem_cons_self _ _)
    have hrest := fun y hy => h y (List.mem_cons_of_mem _ hy)
    rcases sanitizeItem_of_stable x hx with hs | hs <;>
      simp [List.filterMap_cons, hs, ih hrest]

theorem sanitizeItems_length_le (l : List JVal) (cap : Nat) :
    (sanitizeItems l cap).length ≤ cap :=
  le_trans (List.length_filterMap_le _ _) (List.length_take_le _ _)

theorem sanitizeItems_idem (l : List JVal) (cap : Nat)
    (h : allStrsList stableStr l = true) :
    sanitizeItems (sanitizeItems l cap) cap = sanitizeItems l cap := by
  unfold sanitizeItems
  rw [List.take_of_length_le (le_trans (List.length_filterMap_le _ _)
    (List.length_take_le _ _))]
  exact filterMap_sanitizeItem_idem _ fun x hx =>
    allStrsList_mem _ _ _ h (List.mem_of_mem_take hx)

/-- The shape facts of a processed section: its `id` is the requested one,
its title is a fixed point of the 80-cap sanitizer, and its items are a
list whose strings are stable. -/
theorem getSection_spec (byId : List (String × JVal)) (secId title : String)
    (hsrc : ∀ fs, jGet byId secId = some (.jobj fs) →
        allStrsFields stableStr fs = true ∧ jGet fs "id" = some (.jstr secId))
    (htd : stableStr title = true) :
    jGet (getSection byId secId title) "id" = some (.jstr secId) ∧
    (∃ t1, jGet (getSection byId secId title) "title" = some (.jstr t1) ∧
      sanitizeText t1 (some 80) = t1) ∧
    (∃ items0, jGet (getSection byId secId title) "items" = some (.jarr items0) ∧
      allStrsList stableStr items0 = true) := by
  have hfresh : ∀ u : Option JVal, (∀ fs, u = some (.jobj fs) → False) →
      (match u with
       | some (.jobj fs) => fs
       | _ => [("id", JVal.jstr secId), ("title", JVal.jstr title),
               ("items", JVal.jarr [])]) =
      [("id", JVal.jstr secId), ("title", JVal.jstr title),
       ("items", JVal.jarr [])] := by
    intro u hu
    match u with
    | none => rfl
    | some .jnull => rfl
    | some (.jbool b) => rfl
    | some (.jint n) => rfl
    | some (.jnum q) => rfl
    | some (.jstr s) => rfl
    | some (.jarr xs) => rfl
    | some (.jobj fs) => exact absurd rfl (hu fs)
  unfold getSection
  by_cases hobj : ∃ fs, jGet byId secId = some (.jobj fs)
  · obtain ⟨fs, hlook⟩ := hobj
    obtain ⟨hstab, hid⟩ := hsrc fs hlook
    rw [hlook]
    dsimp only
    have ht0 : stableStr (match jGet fs "title" with
        | some (.jstr t) => t
        | _ => title) = true := by
      cases htl : jGet fs "title" with
      | none => exact htd
      | some v =>
        cases v with
        | jstr t => exact allStrs_jGet _ _ _ _ hstab htl
        | jnull => exact htd
        | jbool b => exact htd
        | jint n => exact htd
        | jnum q => exact htd
        | jarr xs => exact htd
        | jobj g => exact htd
    rw [stableStr_80 _ ht0]
    have hne_ti : "title" ≠ "items" := by decide
    have hne_tid : "title" ≠ "id" := by decide
    have hne_iid : "items" ≠ "id" := by decide
    have hne_it : "items" ≠ "title" := by decide
    rw [jGet_dictSet_ne _ _ _ _ hne_ti]
    cases him : jGet fs "items" with
    | none =>
      refine ⟨?_, ⟨_, ?_, stableStr_80 _ ht0⟩, ⟨[], ?_, rfl⟩⟩
      · rw [jGet_dictSet_ne _ _ _ _ hne_iid, jGet_dictSet_ne _ _ _ _ hne_tid]
        exact hid
      · rw [jGet_dictSet_ne _ _ _ _ hne_it]
        exact jGet_dictSet_self _ _ _
      · exact jGet_dictSet_self _ _ _
    | some v =>
      cases v with
      | jarr items0 =>
        refine ⟨?_, ⟨_, jGet_dictSet_self _ _ _, stableStr_80 _ ht0⟩,
          ⟨items0, ?_, ?_⟩⟩
        · rw [jGet_dictSet_ne _ _ _ _ hne_tid]
          exact hid
        · rw [jGet_dictSet_ne _ _ _ _ hne_ti]
          exact him
        · exact allStrs_jGet _ _ _ _ hstab him
      | jnull =>
        refine ⟨?_, ⟨_, ?_, stableStr_80 _ ht0⟩, ⟨[], ?_, rfl⟩⟩
        · rw [jGet_dictSet_ne _ _ _ _ hne_iid, jGet_dictSet_ne _ _ _ _ hne_tid]
          exact hid
        · rw [jGet_dictSet_ne _ _ _ _ hne_it]
          exact jGet_dictSet_self _ _ _
        · exact jGet_dictSet_self _ _ _
      | jbool b =>
        refine ⟨?_, ⟨_, ?_, stableStr_80 _ ht0⟩, ⟨[], ?_, rfl⟩⟩
        · rw [jGet_dictSet_ne _ _ _ _ hne_iid, jGet_dictSet_ne _ _ _ _ hne_tid]
          exact hid
        · rw [jGet_dictSet_ne _ _ _ _ hne_it]
          exact jGet_dictSet_self _ _ _
        · exact jGet_dictSet_self _ _ _
      | jint n =>
        refine ⟨?_, ⟨_, ?_, stableStr_80 _ ht0⟩, ⟨[], ?_, rfl⟩⟩
        · rw [jGet_dictSet_ne _ _ _ _ hne_iid, jGet_dictSet_ne _ _ _ _ hne_tid]
          exact hid
        · rw [jGet_dictSet_ne _ _ _ _ hne_it]
          exact jGet_dictSet_self _ _ _
        · exact jGet_dictSet_self _ _ _
      | jnum q =>
        refine ⟨?_, ⟨_, ?_, stableStr_80 _ ht0⟩, ⟨[], ?_, rfl⟩⟩
        · rw [jGet_dictSet_ne _ _ _ _ hne_iid, jGet_dictSet_ne _ _ _ _ hne_tid]
          exact hid
        · rw [jGet_dictSet_ne _ _ _ _ hne_it]
          exact jGet_dictSet_self _ _ _
        · exact jGet_dictSet_self _ _ _
      | jstr s =>
        refine ⟨?_, ⟨_, ?_, stableStr_80 _ ht0⟩, ⟨[], ?_, rfl⟩⟩
        · rw [jGet_dictSet_ne _ _ _ _ hne_iid, jGet_dictSet_ne _ _ _ _ hne_tid]
          exact hid
        · rw [jGet_dictSet_ne _ _ _ _ hne_it]
          exact jGet_dictSet_self _ _ _
        · exact jGet_dictSet_self _ _ _
      | jobj g =>
        refine ⟨?_, ⟨_, ?_, stableStr_80 _ ht0⟩, ⟨[], ?_, rfl⟩⟩
        · rw [jGet_dictSet_ne _ _ _ _ hne_iid, jGet_dictSet_ne _ _ _ _ hne_tid]
          exact hid
        · rw [jGet_dictSet_ne _ _ _ _ hne_it]
          exact jGet_dictSet_self _ _ _
        · exact jGet_dictSet_self _ _ _
  · rw [hfresh (jGet byId secId) (fun fs hfs => hobj ⟨fs, hfs⟩)]
    dsimp only
    rw [show (match jGet
        [("id", JVal.jstr secId), ("title", JVal.jstr title),
         ("items", JVal.jarr [])] "title" with
        | some (.jstr t) => t
        | _ => title) = title by simp [jGet]]
    rw [stableStr_80 _ htd]
    rw [show dictSet
        [("id", JVal.jstr secId), ("title", JVal.jstr title),
         ("items", JVal.jarr [])] "title" (JVal.jstr title) =
        [("id", JVal.jstr secId), ("title", JVal.jstr title),
         ("items", JVal.jarr [])] from
      dictSet_eq_self _ _ _ (by simp [jGet])]
    exact ⟨by simp [jGet], ⟨title, by simp [jGet], stableStr_80 _ htd⟩,
      ⟨[], by simp [jGet], rfl⟩⟩

/-- Unconditional shape facts: the processed section's `id` is the
requested one and its `items` field is a list. -/
theorem getSection_id_items (byId : List (String × JVal)) (secId title : String)
    (hsrc : ∀ fs, jGet byId secId = some (.jobj fs) →
        jGet fs "id" = some (.jstr secId)) :
    jGet (getSection byId secId title) "id" = some (.jstr secId) ∧
    ∃ items0, jGet (getSection byId secId title) "items" = some (.jarr items0) := by
  have hne_tid : "title" ≠ "id" := by decide
  have hne_iid : "items" ≠ "id" := by decide
  have hne_it : "items" ≠ "title" := by decide
  have hne_ti : "title" ≠ "items" := by decide
  unfold getSection
  by_cases hobj : ∃ fs, jGet byId secId = some (.jobj fs)
  · obtain ⟨fs, hlook⟩ := hobj
    have hid := hsrc fs hlook
    rw [hlook]
    dsimp only
    rw [jGet_dictSet_ne _ _ _ _ hne_ti]
    cases him : jGet fs "items" with
    | none =>
      refine ⟨?_, ⟨[], jGet_dictSet_self _ _ _⟩⟩
      rw [jGet_dictSet_ne _ _ _ _ hne_iid, jGet_dictSet_ne _ _ _ _ hne_tid]
      exact hid
    | some v =>
      cases v with
      | jarr items0 =>
        refine ⟨?_, ⟨items0, ?_⟩⟩
        · rw [jGet_dictSet_ne _ _ _ _ hne_tid]
          exact hid
        · rw [jGet_dictSet_ne _ _ _ _ hne_ti]
          exact him
      | jnull =>
        refine ⟨?_, ⟨[], jGet_dictSet_self _ _ _⟩⟩
        rw [jGet_dictSet_ne _ _ _ _ hne_iid, jGet_dictSet_ne _ _ _ _ hne_tid]
        exact hid
      | jbool b =>
        refine ⟨?_, ⟨[], jGet_dictSet_self _ _ _⟩⟩
        rw [jGet_dictSet_ne _ _ _ _ hne_iid, jGet_dictSet_ne _ _ _ _ hne_tid]
        exact hid
      | jint n =>
        refine ⟨?_, ⟨[], jGet_dictSet_self _ _ _⟩⟩
        rw [jGet_dictSet_ne _ _ _ _ hne_iid, jGet_dictSet_ne _ _ _ _ hne_tid]
        exact hid
      | jnum q =>
        refine ⟨?_, ⟨[], jGet_dictSet_self _ _ _⟩⟩
        rw [jGet_dictSet_ne _ _ _ _ hne_iid, jGet_dictSet_ne _ _ _ _ hne_tid]
        exact hid
      | jstr s =>
        refine ⟨?_, ⟨[], jGet_dictSet_self _ _ _⟩⟩
        rw [jGet_dictSet_ne _ _ _ _ hne_iid, jGet_dictSet_ne _ _ _ _ hne_tid]
        exact hid
      | jobj g =>
        refine ⟨?_, ⟨[], jGet_dictSet_self _ _ _⟩⟩
        rw [jGet_dictSet_ne _ _ _ _ hne_iid, jGet_dictSet_ne _ _ _ _ hne_tid]
        exact hid
  · have hfresh : (match jGet byId secId with
        | some (.jobj fs) => fs
        | _ => [("id", JVal.jstr secId), ("title", JVal.jstr title),
                ("items", JVal.jarr [])]) =
        [("id", JVal.jstr secId), ("title", JVal.jstr title),
         ("items", JVal.jarr [])] := by
      cases hu : jGet byId secId with
      | none => rfl
      | some v =>
        cases v with
        | jobj fs => exact absurd ⟨fs, hu⟩ hobj
        | jnull => rfl
        | jbool b => rfl
        | jint n => rfl
        | jnum q => rfl
        | jstr s => rfl
        | jarr xs => rfl
    rw [hfresh]
    dsimp only
    rw [show (match jGet
        [("id", JVal.jstr secId), ("title", JVal.jstr title),
         ("items", JVal.jarr [])] "title" with
        | some (.jstr t) => t
        | _ => title) = title by simp [jGet]]
    constructor
    · rw [show jGet (dictSet
        [("id", JVal.jstr secId), ("title", JVal.jstr title),
         ("items", JVal.jarr [])] "title"
          (JVal.jstr (sanitizeText title (some 80)))) "items" =
        some (.jarr []) by simp [dictSet, jGet]]
      simp [dictSet, jGet]
    · refine ⟨[], ?_⟩
      rw [show jGet (dictSet
        [("id", JVal.jstr secId), ("title", JVal.jstr title),
         ("items", JVal.jarr [])] "title"
          (JVal.jstr (sanitizeText title (some 80)))) "items" =
        some (.jarr []) by simp [dictSet, jGet]]
      simp [dictSet, jGet]

/-- `shapeSection` output: requested id, sanitizer-stable title, items a
list that re-sanitizes to itself and respects the cap (the last two under
the stability hypotheses). -/
theorem shapeSection_spec (byId : List (String × JVal)) (secId title : String)
    (cap : Nat)
    (hsrc : ∀ fs, jGet byId secId = some (.jobj fs) →
        allStrsFields stableStr fs = true ∧ jGet fs "id" = some (.jstr secId))
    (htd : stableStr title = true) :
    jGet (shapeSection byId secId title cap) "id" = some (.jstr secId) ∧
    (∃ t1, jGet (shapeSection byId secId title cap) "title" = some (.jstr t1) ∧
      sanitizeText t1 (some 80) = t1) ∧
    (∃ items1, jGet (shapeSection byId secId title cap) "items" =
        some (.jarr items1) ∧ sanitizeItems items1 cap = items1 ∧
        items1.length ≤ cap) := by
  obtain ⟨hid, ⟨t1, ht1, hst⟩, ⟨items0, hi0, hstab0⟩⟩ :=
    getSection_spec byId secId title hsrc htd
  unfold shapeSection itemsOf
  dsimp only
  rw [hi0]
  dsimp only
  refine ⟨?_, ⟨t1, ?_, hst⟩, ⟨sanitizeItems items0 cap,
    jGet_dictSet_self _ _ _, sanitizeItems_idem items0 cap hstab0,
    sanitizeItems_length_le _ _⟩⟩
  · rw [jGet_dictSet_ne _ _ _ _ (show "items" ≠ "id" by decide)]
    exact hid
  · rw [jGet_dictSet_ne _ _ _ _ (show "items" ≠ "title" by decide)]
    exact ht1

/-- Unconditional `shapeSection` facts: requested id, capped items. -/
theorem shapeSection_caps (byId : List (String × JVal)) (secId title : String)
    (cap : Nat)
    (hsrc : ∀ fs, jGet byId secId = some (.jobj fs) →
        jGet fs "id" = some (.jstr secId)) :
    jGet (shapeSection byId secId title cap) "id" = some (.jstr secId) ∧
    ∃ items1, jGet (shapeSection byId secId title cap) "items" =
        some (.jarr items1) ∧ items1.length ≤ cap := by
  obtain ⟨hid, ⟨items0, hi0⟩⟩ := getSection_id_items byId secId title hsrc
  unfold shapeSection itemsOf
  dsimp only
  rw [hi0]
  dsimp only
  refine ⟨?_, ⟨sanitizeItems items0 cap, jGet_dictSet_self _ _ _,
    sanitizeItems_length_le _ _⟩⟩
  rw [jGet_dictSet_ne _ _ _ _ (show "items" ≠ "id" by decide)]
  exact hid

/-- Re-running `shapeSection` on a section it produced is the identity. -/
theorem shapeSection_pass2 (byId2 : List (String × JVal))
    (g : List (String × JVal)) (secId title : String) (cap : Nat)
    (hlook : jGet byId2 secId = some (.jobj g))
    (ht : ∃ t1, jGet g "title" = some (.jstr t1) ∧
      sanitizeText t1 (some 80) = t1)
    (hi : ∃ items1, jGet g "items" = some (.jarr items1) ∧
      sanitizeItems items1 cap = items1) :
    shapeSection byId2 secId title cap = g := by
  obtain ⟨t1, ht1, hst⟩ := ht
  obtain ⟨items1, hi1, hsi⟩ := hi
  unfold shapeSection getSection itemsOf
  dsimp only
  rw [hlook]
  dsimp only
  rw [ht1]
  dsimp only
  rw [hst, dictSet_eq_self _ _ _ ht1, hi1]
  dsimp only
  rw [hi1]
  dsimp only
  rw [hsi]
  exact dictSet_eq_self _ _ _ hi1

theorem buildById_four (g1 g2 g3 g4 : List (String × JVal))
    (h1 : jGet g1 "id" = some (.jstr "sentence_improvements"))
    (h2 : jGet g2 "id" = some (.jstr "ideas_development"))
    (h3 : jGet g3 "id" = some (.jstr "next_steps"))
    (h4 : jGet g4 "id" = some (.jstr "mini_rewrite")) :
    buildById [.jobj g1, .jobj g2, .jobj g3, .jobj g4] =
      [("sentence_improvements", .jobj g1), ("ideas_development", .jobj g2),
       ("next_steps", .jobj g3), ("mini_rewrite", .jobj g4)] := by
  unfold buildById
  simp only [List.foldl_cons, List.foldl_nil, byIdStep, h1, h2, h3, h4]
  simp [dictSet]

/-- Re-shaping the shaped review sections is the identity when every
string in the input is sanitizer-stable. -/
theorem shapeSections_idem (rs : JVal) (h : allStrs stableStr rs = true) :
    shapeSections (.jarr (shapeSections rs)) = shapeSections rs := by
  have hsrc : ∀ (secId : String) (fs : List (String × JVal)),
      jGet (buildById (sectionsOf rs)) secId = some (.jobj fs) →
      allStrsFields stableStr fs = true ∧ jGet fs "id" = some (.jstr secId) := by
    intro secId fs hlook
    obtain ⟨fs', hv, hmem, hid⟩ := buildById_mem _ _ _ hlook
    injection hv with hv'
    subst hv'
    refine ⟨?_, hid⟩
    cases rs with
    | jarr l =>
      have hm := allStrsList_mem stableStr l _ (by simpa [allStrs] using h) hmem
      simpa [allStrs] using hm
    | jnull => exact absurd hmem (List.not_mem_nil _)
    | jbool b => exact absurd hmem (List.not_mem_nil _)
    | jint n => exact absurd hmem (List.not_mem_nil _)
    | jnum q => exact absurd hmem (List.not_mem_nil _)
    | jstr str => exact absurd hmem (List.not_mem_nil _)
    | jobj g => exact absurd hmem (List.not_mem_nil _)
  obtain ⟨hidA, htA, hiA⟩ := shapeSection_spec _ "sentence_improvements"
    "Make these sentences stronger" 8 (hsrc _) (by decide)
  obtain ⟨hidB, htB, hiB⟩ := shapeSection_spec _ "ideas_development"
    "Ideas development suggestions" 6 (hsrc _) (by decide)
  obtain ⟨hidC, htC, hiC⟩ := shapeSection_spec _ "next_steps"
    "Next time try this" 8 (hsrc _) (by decide)
  obtain ⟨hidD, htD, hiD⟩ := shapeSection_spec _ "mini_rewrite"
    "Mini rewrite (example)" 4 (hsrc _) (by decide)
  obtain ⟨iA, hiA1, hiA2, hlenA⟩ := hiA
  obtain ⟨iB, hiB1, hiB2, hlenB⟩ := hiB
  obtain ⟨iC, hiC1, hiC2, hlenC⟩ := hiC
  obtain ⟨iD, hiD1, hiD2, hlenD⟩ := hiD
  set b := buildById (sectionsOf rs) with hbdef
  set s1 := shapeSection b "sentence_improvements" "Make these sentences stronger" 8
    with hs1
  set s2 := shapeSection b "ideas_development" "Ideas development suggestions" 6
    with hs2
  set s3 := shapeSection b "next_steps" "Next time try this" 8 with hs3
  set s4 := shapeSection b "mini_rewrite" "Mini rewrite (example)" 4 with hs4
  have hout : shapeSections rs = [.jobj s1, .jobj s2, .jobj s3, .jobj s4] := rfl
  have hby2 := buildById_four s1 s2 s3 s4 hidA hidB hidC hidD
  have e1 : shapeSection
      [("sentence_improvements", .jobj s1), ("ideas_development", .jobj s2),
       ("next_steps", .jobj s3), ("mini_rewrite", .jobj s4)]
      "sentence_improvements" "Make these sentences stronger" 8 = s1 :=
    shapeSection_pass2 _ _ _ _ _ (by simp [jGet]) htA ⟨iA, hiA1, hiA2⟩
  have e2 : shapeSection
      [("sentence_improvements", .jobj s1), ("ideas_development", .jobj s2),
       ("next_steps", .jobj s3), ("mini_rewrite", .jobj s4)]
      "ideas_development" "Ideas development suggestions" 6 = s2 :=
    shapeSection_pass2 _ _ _ _ _ (by simp [jGet]) htB ⟨iB, hiB1, hiB2⟩
  have e3 : shapeSection
      [("sentence_improvements", .jobj s1), ("ideas_development", .jobj s2),
       ("next_steps", .jobj s3), ("mini_rewrite", .jobj s4)]
      "next_steps" "Next time try this" 8 = s3 :=
    shapeSection_pass2 _ _ _ _ _ (by simp [jGet]) htC ⟨iC, hiC1, hiC2⟩
  have e4 : shapeSection
      [("sentence_improvements", .jobj s1), ("ideas_development", .jobj s2),
       ("next_steps", .jobj s3), ("mini_rewrite", .jobj s4)]
      "mini_rewrite" "Mini rewrite (example)" 4 = s4 :=
    shapeSection_pass2 _ _ _ _ _ (by simp [jGet]) htD ⟨iD, hiD1, hiD2⟩
  rw [hout]
  show shapeSections (.jarr [.jobj s1, .jobj s2, .jobj s3, .jobj s4]) =
    [.jobj s1, .jobj s2, .jobj s3, .jobj s4]
  unfold shapeSections
  dsimp only
  rw [show sectionsOf (JVal.jarr [.jobj s1, .jobj s2, .jobj s3, .jobj s4]) =
    [.jobj s1, .jobj s2, .jobj s3, .jobj s4] from rfl]
  rw [hby2, e1, e2, e3, e4]

/-- **C6** (amended).  Each application of `ensure_review_sections_shape`
produces exactly the four fixed sections, in order, with ids
`sentence_improvements`, `ideas_development`, `next_steps`, `mini_rewrite`
and item lists capped at 8, 6, 8, 4 — unconditionally.  Re-applying it is
a no-op *provided every string in the object is a fixed point of the
sanitizer at the caps 80/200/260* (in particular whenever no truncation
occurs).  Exact idempotence fails in general: a string truncated at its
cap is re-truncated differently on the second pass (see the
counterexample). -/
theorem C6_review_sections_shape (d rs : JVal) :
    (∃ g1 g2 g3 g4 i1 i2 i3 i4,
      shapeSections rs = [.jobj g1, .jobj g2, .jobj g3, .jobj g4] ∧
      jGet g1 "id" = some (.jstr "sentence_improvements") ∧
      jGet g2 "id" = some (.jstr "ideas_development") ∧
      jGet g3 "id" = some (.jstr "next_steps") ∧
      jGet g4 "id" = some (.jstr "mini_rewrite") ∧
      jGet g1 "items" = some (.jarr i1) ∧ i1.length ≤ 8 ∧
      jGet g2 "items" = some (.jarr i2) ∧ i2.length ≤ 6 ∧
      jGet g3 "items" = some (.jarr i3) ∧ i3.length ≤ 8 ∧
      jGet g4 "items" = some (.jarr i4) ∧ i4.length ≤ 4) ∧
    (allStrs stableStr d = true →
      ensureReviewSectionsShape (ensureReviewSectionsShape d) =
        ensureReviewSectionsShape d) := by
  constructor
  · have hsrc0 : ∀ (secId : String) (fs : List (String × JVal)),
        jGet (buildById (match rs with | .jarr l => l | _ => [])) secId =
          some (.jobj fs) → jGet fs "id" = some (.jstr secId) := by
      intro secId fs hlook
      obtain ⟨fs', hv, _, hid⟩ := buildById_mem _ _ _ hlook
      injection hv with hv'
      subst hv'
      exact hid
    obtain ⟨hidA, ⟨iA, hiA1, hiA2⟩⟩ := shapeSection_caps _ "sentence_improvements"
      "Make these sentences stronger" 8 (hsrc0 _)
    obtain ⟨hidB, ⟨iB, hiB1, hiB2⟩⟩ := shapeSection_caps _ "ideas_development"
      "Ideas development suggestions" 6 (hsrc0 _)
    obtain ⟨hidC, ⟨iC, hiC1, hiC2⟩⟩ := shapeSection_caps _ "next_steps"
      "Next time try this" 8 (hsrc0 _)
    obtain ⟨hidD, ⟨iD, hiD1, hiD2⟩⟩ := shapeSection_caps _ "mini_rewrite"
      "Mini rewrite (example)" 4 (hsrc0 _)
    exact ⟨_, _, _, _, iA, iB, iC, iD, rfl, hidA, hidB, hidC, hidD,
      hiA1, hiA2, hiB1, hiB2, hiC1, hiC2, hiD1, hiD2⟩
  · intro hstable
    cases d with
    | jobj f =>
      have hrs : allStrs stableStr (jGetD f "review_sections") = true := by
        cases hg : jGet f "review_sections" with
        | none => simp [jGetD, hg, allStrs]
        | some v =>
          have := allStrs_jGet _ _ _ _ (by simpa [allStrs] using hstable) hg
          simpa [jGetD, hg] using this
      have hidem := shapeSections_idem _ hrs
      unfold ensureReviewSectionsShape
      dsimp only
      rw [show jGetD (dictSet f "review_sections"
          (.jarr (shapeSections (jGetD f "review_sections"))))
          "review_sections" =
          .jarr (shapeSections (jGetD f "review_sections")) by
        simp [jGetD, jGet_dictSet_self]]
      rw [hidem, dictSet_dictSet]
    | jnull => rfl
    | jbool b => rfl
    | jint n => rfl
    | jnum q => rfl
    | jstr s => rfl
    | jarr xs => rfl

/-! ### C1: criteria normalization -/

theorem lookup_map_pair (l : List (String × Option Int)) (key hit : String)
    (h : ((l.map fun p => (strLower p.1, p.1)).lookup key) = some hit) :
    hit ∈ l.map Prod.fst ∧ strLower hit = key := by
  induction l with
  | nil => simp [List.lookup] at h
  | cons p ps ih =>
    simp only [List.map, List.lookup] at h
    cases hbk : (key == strLower p.1) with
    | true =>
      rw [hbk] at h
      simp only [Option.some.injEq] at h
      subst h
      exact ⟨by simp, (eq_of_beq hbk).symm⟩
    | false =>
      rw [hbk] at h
      obtain ⟨hm, hl⟩ := ih h
      exact ⟨by simp [hm], hl⟩

theorem lookup_map_pair_mem (l : List (String × Option Int)) (x : String)
    (hx : x ∈ l.map Prod.fst) :
    ∃ hit, ((l.map fun p => (strLower p.1, p.1)).lookup (strLower x)) = some hit := by
  induction l with
  | nil => simp at hx
  | cons p ps ih =>
    simp only [List.map, List.lookup]
    cases hbk : (strLower x == strLower p.1) with
    | true => exact ⟨p.1, rfl⟩
    | false =>
      rcases (by simpa using hx : x = p.1 ∨ x ∈ ps.map Prod.fst) with hx1 | hx2
      · subst hx1
        simp at hbk
      · exact ih hx2

theorem lowerLookup_mem (am : List (String × Option Int)) (key hit : String)
    (h : lowerLookup am key = some hit) :
    hit ∈ am.map Prod.fst ∧ strLower hit = key := by
  unfold lowerLookup at h
  obtain ⟨hm, hl⟩ := lookup_map_pair am.reverse key hit h
  refine ⟨?_, hl⟩
  simpa using hm

theorem lowerLookup_of_mem (am : List (String × Option Int)) (x : String)
    (hx : x ∈ am.map Prod.fst) : ∃ hit, lowerLookup am (strLower x) = some hit := by
  unfold lowerLookup
  exact lookup_map_pair_mem am.reverse x (by simpa using hx)

theorem canon_spec (x : String) (am : List (String × Option Int)) :
    canonicalizeCriterionName x am = "" ∨
    canonicalizeCriterionName x am ∈ am.map Prod.fst ∨
    lowerLookup am (strLower (canonicalizeCriterionName x am)) = none := by
  unfold canonicalizeCriterionName
  by_cases he : (sanitizeText x (some 40)).isEmpty = true
  · rw [if_pos he]
    exact Or.inl rfl
  · rw [if_neg he]
    cases hl : lowerLookup am (strLower (sanitizeText x (some 40))) with
    | some hit =>
      obtain ⟨hm, _⟩ := lowerLookup_mem am _ hit hl
      exact Or.inr (Or.inl hm)
    | none => exact Or.inr (Or.inr hl)

set_option maxHeartbeats 8000000 in
theorem normLoop_names (am : List (String × Option Int)) (tt : String) :
    ∀ (l : List JVal) (seen : List String) (kept : List Crit) (t : Int),
      normLoop am tt l seen = .ok (kept, t) →
      (kept.map fun c => strLower c.name).Nodup ∧
      ∀ c ∈ kept, strLower c.name ∉ seen ∧
        (c.name ∈ am.map Prod.fst ∨ lowerLookup am (strLower c.name) = none) := by
  intro l
  induction l with
  | nil =>
    intro seen kept t h
    simp only [normLoop, Except.ok.injEq, Prod.mk.injEq] at h
    obtain ⟨h1, _⟩ := h
    subst h1
    simp
  | cons c rest ih =>
    intro seen kept t h
    cases c with
    | jobj fields =>
      simp only [normLoop] at h
      by_cases h1 : truthyNonStr (jGetD fields "name") = true
      · rw [if_pos h1] at h
        exact absurd h (by simp)
      · rw [if_neg h1] at h
        by_cases h2 : (canonicalizeCriterionName (strOrEmpty (jGetD fields "name")) am).isEmpty = true
        · rw [if_pos h2] at h
          exact ih _ _ _ h
        · rw [if_neg h2] at h
          by_cases h3 : seen.contains (strLower (canonicalizeCriterionName (strOrEmpty (jGetD fields "name")) am)) = true
          · rw [if_pos h3] at h
            exact ih _ _ _ h
          · rw [if_neg h3] at h
            have hnm : canonicalizeCriterionName (strOrEmpty (jGetD fields "name")) am ∈ am.map Prod.fst ∨
                lowerLookup am (strLower (canonicalizeCriterionName (strOrEmpty (jGetD fields "name")) am)) = none := by
              rcases canon_spec (strOrEmpty (jGetD fields "name")) am with h0 | h0 | h0
              · rw [h0] at h2
                exact absurd rfl h2
              · exact Or.inl h0
              · exact Or.inr h0
            have hseen : strLower (canonicalizeCriterionName (strOrEmpty (jGetD fields "name")) am) ∉ seen := by
              intro hmem
              exact h3 (List.elem_iff.mpr hmem)
            by_cases h4 : tt = "Narrative" ∧ canonicalizeCriterionName (strOrEmpty (jGetD fields "name")) am = "Persuasive Devices"
            · rw [if_pos h4] at h
              by_cases h5 : truthyNonStr (jGetD fields "suggestion") = true
              · rw [if_pos h5] at h
                exact absurd h (by simp)
              · rw [if_neg h5] at h
                cases hrec : normLoop am tt rest (strLower (canonicalizeCriterionName (strOrEmpty (jGetD fields "name")) am) :: seen) with
                | error e =>
                  rw [hrec] at h
                  exact absurd h (by simp)
                | ok pr =>
                  obtain ⟨l2, t2⟩ := pr
                  rw [hrec] at h
                  simp only [Except.ok.injEq, Prod.mk.injEq] at h
                  obtain ⟨hk, _⟩ := h
                  subst hk
                  obtain ⟨ihnd, ihmem⟩ := ih _ _ _ hrec
                  constructor
                  · refine List.Nodup.cons ?_ ihnd
                    intro hmem
                    simp only [List.mem_map] at hmem
                    obtain ⟨c2, hc2, he2⟩ := hmem
                    refine (ihmem c2 hc2).1 ?_
                    rw [he2, h4.2]
                    exact List.mem_cons_self _ _
                  · intro c2 hc2
                    rcases List.mem_cons.mp hc2 with hh | hh
                    · subst hh
                      dsimp only
                      rw [← h4.2]
                      exact ⟨hseen, hnm⟩
                    · obtain ⟨hs, hm⟩ := ihmem c2 hh
                      exact ⟨fun hx => hs (List.mem_cons_of_mem _ hx), hm⟩
            · rw [if_neg h4] at h
              by_cases h5 : truthyNonStr (jGetD fields "suggestion") = true
              · rw [if_pos h5] at h
                exact absurd h (by simp)
              · rw [if_neg h5] at h
                by_cases h6 : truthyNonStr (jGetD fields "evidence_quote") = true
                · rw [if_pos h6] at h
                  exact absurd h (by simp)
                · rw [if_neg h6] at h
                  cases hrec : normLoop am tt rest (strLower (canonicalizeCriterionName (strOrEmpty (jGetD fields "name")) am) :: seen) with
                  | error e =>
                    rw [hrec] at h
                    exact absurd h (by simp)
                  | ok pr =>
                    obtain ⟨l2, t2⟩ := pr
                    rw [hrec] at h
                    simp only [Except.ok.injEq, Prod.mk.injEq] at h
                    obtain ⟨hk, _⟩ := h
                    subst hk
                    obtain ⟨ihnd, ihmem⟩ := ih _ _ _ hrec
                    constructor
                    · refine List.Nodup.cons ?_ ihnd
                      intro hmem
                      simp only [List.mem_map] at hmem
                      obtain ⟨c2, hc2, he2⟩ := hmem
                      refine (ihmem c2 hc2).1 ?_
                      rw [he2]
                      exact List.mem_cons_self _ _
                    · intro c2 hc2
                      rcases List.mem_cons.mp hc2 with hh | hh
                      · subst hh
                        dsimp only
                        exact ⟨hseen, hnm⟩
                      · obtain ⟨hs, hm⟩ := ihmem c2 hh
                        exact ⟨fun hx => hs (List.mem_cons_of_mem _ hx), hm⟩
    | jnull => simp only [normLoop] at h; exact ih _ _ _ h
    | jbool b => simp only [normLoop] at h; exact ih _ _ _ h
    | jint n => simp only [normLoop] at h; exact ih _ _ _ h
    | jnum q => simp only [normLoop] at h; exact ih _ _ _ h
    | jstr s => simp only [normLoop] at h; exact ih _ _ _ h
    | jarr xs => simp only [normLoop] at h; exact ih _ _ _ h


theorem synthCrit_name (tt n : String) (m : Option Int) :
    (synthCrit tt n m).name = n := by
  unfold synthCrit
  by_cases h : tt = "Narrative" ∧ n = "Persuasive Devices"
  · rw [if_pos h]
    exact h.2.symm
  · rw [if_neg h]

theorem fillMissing_map_name (am : List (String × Option Int))
    (ex : List String) (tt : String) :
    (fillMissing am ex tt).map Crit.name =
      (am.filter fun p => !ex.contains p.1).map Prod.fst := by
  induction am with
  | nil => rfl
  | cons p ps ih =>
    simp only [fillMissing] at ih ⊢
    rw [List.filterMap_cons, List.filter_cons]
    cases hc : ex.contains p.1 with
    | true => simpa using ih
    | false => simpa [synthCrit_name] using ih

theorem fillMissing_map_lower (am : List (String × Option Int))
    (ex : List String) (tt : String) :
    ((fillMissing am ex tt).map fun c => strLower c.name) =
      (am.filter fun p => !ex.contains p.1).map (fun p => strLower p.1) := by
  have h1 : ((fillMissing am ex tt).map fun c => strLower c.name) =
      ((fillMissing am ex tt).map Crit.name).map strLower := by
    rw [List.map_map]
    rfl
  rw [h1, fillMissing_map_name, List.map_map]
  rfl

theorem fillMissing_length (am : List (String × Option Int))
    (ex : List String) (tt : String) :
    (fillMissing am ex tt).length =
      (am.filter fun p => !ex.contains p.1).length := by
  have := congrArg List.length (fillMissing_map_name am ex tt)
  simpa using this

theorem fill_mem (am : List (String × Option Int)) (ex : List String)
    (tt : String) (c : Crit) (hc : c ∈ fillMissing am ex tt) :
    ∃ p ∈ am, p.1 ∉ ex ∧ c = synthCrit tt p.1 p.2 := by
  unfold fillMissing at hc
  rw [List.mem_filterMap] at hc
  obtain ⟨p, hp, hf⟩ := hc
  by_cases hcon : ex.contains p.1 = true
  · rw [if_pos hcon] at hf
    exact absurd hf (by simp)
  · rw [if_neg hcon] at hf
    simp only [Option.some.injEq] at hf
    exact ⟨p, hp, fun hm => hcon (List.elem_iff.mpr hm), hf.symm⟩

theorem length_filter_bool_add {α : Type} (p : α → Bool) (l : List α) :
    (l.filter p).length + (l.filter fun a => !p a).length = l.length := by
  induction l with
  | nil => rfl
  | cons a t ih =>
    rw [List.filter_cons, List.filter_cons]
    by_cases h : p a = true
    · rw [if_pos h, if_neg (by simp [h])]
      simp only [List.length_cons]
      omega
    · rw [if_neg h, if_pos (by simp [h])]
      simp only [List.length_cons]
      omega

theorem count_inter_comm (xs ys : List String) (hx : xs.Nodup) (hy : ys.Nodup) :
    (xs.filter fun a => ys.contains a).length =
    (ys.filter fun a => xs.contains a).length := by
  have h1 : ∀ (l m : List String), l.Nodup →
      (l.filter fun a => m.contains a).length = (l.toFinset ∩ m.toFinset).card := by
    intro l m hl
    rw [← List.toFinset_card_of_nodup (hl.filter _)]
    congr 1
    ext a
    simp [List.mem_toFinset, List.mem_filter, Finset.mem_inter, List.elem_iff,
      List.contains]
  rw [h1 xs ys hx, h1 ys xs hy, Finset.inter_comm]

theorem C1_core (am : List (String × Option Int)) (tt : String)
    (l0 : List JVal) (kept : List Crit) (t : Int)
    (hnd : (am.map fun p => strLower p.1).Nodup)
    (hnl : normLoop am tt l0 [] = .ok (kept, t)) :
    ((kept ++ fillMissing am (kept.map Crit.name) tt).map
        fun c => strLower c.name).Nodup ∧
    (∀ p ∈ am, ∃ c ∈ kept ++ fillMissing am (kept.map Crit.name) tt,
        c.name = p.1) ∧
    (kept ++ fillMissing am (kept.map Crit.name) tt).length =
      am.length + ((kept ++ fillMissing am (kept.map Crit.name) tt).filter
        fun c => !((am.map Prod.fst).contains c.name)).length := by
  obtain ⟨hknd, hkmem⟩ := normLoop_names am tt l0 [] kept t hnl
  have hndk : ((am.map Prod.fst).map strLower).Nodup := by
    rw [List.map_map]
    exact hnd
  have hkeysnd : (am.map Prod.fst).Nodup := hndk.of_map
  have hexlow : ((kept.map Crit.name).map strLower).Nodup := by
    rw [List.map_map]
    exact hknd
  have hexnd : (kept.map Crit.name).Nodup := hexlow.of_map
  have hinj : ∀ a ∈ am.map Prod.fst, ∀ b ∈ am.map Prod.fst,
      strLower a = strLower b → a = b := fun a ha b hb hab =>
    List.inj_on_of_nodup_map hndk ha hb hab
  have hdisj : ∀ a, a ∈ (kept.map fun c => strLower c.name) →
      a ∉ ((fillMissing am (kept.map Crit.name) tt).map
        fun c => strLower c.name) := by
    intro a ha hb
    simp only [List.mem_map] at ha hb
    obtain ⟨c, hc, hca⟩ := ha
    obtain ⟨d, hd, hda⟩ := hb
    obtain ⟨p, hp, hpex, hdp⟩ := fill_mem am (kept.map Crit.name) tt d hd
    have hdn : d.name = p.1 := by
      rw [hdp, synthCrit_name]
    have hlow : strLower c.name = strLower p.1 := by
      rw [hca, ← hda, hdn]
    rcases (hkmem c hc).2 with hmem | hnone
    · have hcp : c.name = p.1 :=
        hinj c.name hmem p.1 (List.mem_map_of_mem Prod.fst hp) hlow
      exact hpex (hcp ▸ List.mem_map_of_mem Crit.name hc)
    · obtain ⟨hit, hhit⟩ := lowerLookup_of_mem am p.1
        (List.mem_map_of_mem Prod.fst hp)
      rw [← hlow] at hhit
      rw [hnone] at hhit
      exact Option.noConfusion hhit
  refine ⟨?_, ?_, ?_⟩
  · rw [List.map_append, List.nodup_append]
    refine ⟨hknd, ?_, hdisj⟩
    rw [fillMissing_map_lower]
    refine List.Nodup.sublist (List.Sublist.map _ (List.filter_sublist am)) ?_
    have h2 := hndk
    rw [List.map_map] at h2
    exact h2
  · intro p hp
    by_cases hex : p.1 ∈ kept.map Crit.name
    · rw [List.mem_map] at hex
      obtain ⟨c, hc, hcn⟩ := hex
      exact ⟨c, List.mem_append_left _ hc, hcn⟩
    · refine ⟨synthCrit tt p.1 p.2, List.mem_append_right _ ?_, synthCrit_name tt p.1 p.2⟩
      unfold fillMissing
      rw [List.mem_filterMap]
      refine ⟨p, hp, ?_⟩
      have hcf : ¬ (kept.map Crit.name).contains p.1 = true :=
        fun hcon => hex (List.elem_iff.mp hcon)
      rw [if_neg hcf]
  · rw [List.length_append, List.filter_append, List.length_append]
    have hfilfil : ((fillMissing am (kept.map Crit.name) tt).filter
        fun c => !((am.map Prod.fst).contains c.name)).length = 0 := by
      rw [List.length_eq_zero]
      rw [List.filter_eq_nil_iff]
      intro d hd
      obtain ⟨p, hp, _, hdp⟩ := fill_mem am (kept.map Crit.name) tt d hd
      have hdn : d.name = p.1 := by rw [hdp, synthCrit_name]
      have hmm2 : d.name ∈ am.map Prod.fst := by
        rw [hdn]
        exact List.mem_map_of_mem Prod.fst hp
      have hct : (am.map Prod.fst).contains d.name = true :=
        List.elem_iff.mpr hmm2
      intro hcon
      rw [hct] at hcon
      exact absurd hcon (by decide)
    rw [hfilfil, fillMissing_length]
    have hsplit : (am.filter fun p => (kept.map Crit.name).contains p.1).length
        + (am.filter fun p => !(kept.map Crit.name).contains p.1).length
        = am.length := length_filter_bool_add _ am
    have hksplit : (kept.filter fun c => (am.map Prod.fst).contains c.name).length
        + (kept.filter fun c => !(am.map Prod.fst).contains c.name).length
        = kept.length := length_filter_bool_add _ kept
    have hcount := count_inter_comm (am.map Prod.fst) (kept.map Crit.name)
      hkeysnd hexnd
    have hamside : ((am.map Prod.fst).filter
        fun k => (kept.map Crit.name).contains k).length =
        (am.filter fun p => (kept.map Crit.name).contains p.1).length := by
      rw [List.filter_map]
      simp only [List.length_map]
      rfl
    have hkside : ((kept.map Crit.name).filter
        fun n => (am.map Prod.fst).contains n).length =
        (kept.filter fun c => (am.map Prod.fst).contains c.name).length := by
      rw [List.filter_map]
      simp only [List.length_map]
      rfl
    omega


/-- **C1** (amended).  When `normalize_criteria_list` succeeds on any raw
criteria value and a rubric whose lowercased names are distinct, the output
has pairwise-distinct case-insensitive names, contains every rubric name,
and its length is the rubric size **plus** the number of kept entries whose
name matches no rubric name (unmatched nonempty names are kept, not
dropped). -/
theorem C1_normalize (crits : JVal) (am : List (String × Option Int))
    (tt : String) (out : List Crit) (total : Int)
    (hnd : (am.map fun p => strLower p.1).Nodup)
    (h : normalizeCriteriaList crits am tt = .ok (out, total)) :
    (out.map fun c => strLower c.name).Nodup ∧
    (∀ p ∈ am, ∃ c ∈ out, c.name = p.1) ∧
    out.length = am.length +
      (out.filter fun c => !((am.map Prod.fst).contains c.name)).length := by
  unfold normalizeCriteriaList at h
  dsimp only at h
  split at h
  · exact absurd h (by simp)
  · rename_i kept t heq
    simp only [Except.ok.injEq, Prod.mk.injEq] at h
    obtain ⟨ho, _⟩ := h
    subst ho
    exact C1_core am tt _ kept t hnd heq

def critBogus : Crit := ⟨"Bogus", some 0, some 0, defaultSuggestion, ""⟩

/-- Counterexample to C1 as stated: an entry named `Bogus` (matching no
rubric name) is kept, so the output has 11 entries, not the rubric size
10. -/
theorem C1_counterexample :
    normalizeCriteriaList (.jarr [.jobj [("name", .jstr "Bogus")]])
        (buildSchemaMax "Narrative") "Narrative" =
      .ok (critBogus :: fillMissing (buildSchemaMax "Narrative") ["Bogus"]
        "Narrative", 0) ∧
    critBogus.name = "Bogus" ∧
    (critBogus :: fillMissing (buildSchemaMax "Narrative") ["Bogus"]
      "Narrative").length = 11 ∧
    (buildSchemaMax "Narrative").length = 10 :=
  ⟨rfl, rfl, rfl, rfl⟩

def c1Crits : JVal :=
  .jarr [.jobj [("name", .jstr "SPELLING"), ("score", .jint 4)],
         .jobj [("name", .jstr "Spelling"), ("score", .jint 9)],
         .jobj [("name", .jstr "  ")]]

/-- Witness for C1: duplicate (case-insensitively) and blank names against
the Persuasive rubric. -/
theorem C1_witness :
    (((buildSchemaMax "Persuasive").map fun p => strLower p.1).Nodup) ∧
    (∃ out total,
      normalizeCriteriaList c1Crits (buildSchemaMax "Persuasive") "Persuasive" =
        .ok (out, total) ∧
      ((out.map fun c => strLower c.name).Nodup ∧
       (∀ p ∈ buildSchemaMax "Persuasive", ∃ c ∈ out, c.name = p.1) ∧
       out.length = (buildSchemaMax "Persuasive").length +
         (out.filter fun c =>
           !(((buildSchemaMax "Persuasive").map Prod.fst).contains
             c.name)).length)) :=
  ⟨by decide, _, _, rfl,
    C1_normalize c1Crits _ "Persuasive" _ _ (by decide) rfl⟩

/-! ### C5: the weaknesses coercion pipeline -/

theorem leadMatch_left (n r : List Char) : leadMatch n (n ++ r) = true := by
  induction n with
  | nil => rfl
  | cons a as ih => simp [leadMatch, ih]

theorem containsSeq_left (n r : List Char) : containsSeq n (n ++ r) = true := by
  cases n with
  | nil => cases r <;> simp [containsSeq, leadMatch, List.isEmpty]
  | cons c cs =>
    show (leadMatch (c :: cs) ((c :: cs) ++ r) || _) = true
    rw [leadMatch_left]
    rfl

/-- A lowercased string contains the lowercasing of any of its prefixes. -/
theorem strContains_lower_left (a b : String) :
    strContains (strLower (a ++ b)) (strLower a) = true := by
  show containsSeq (strLower a).data (strLower (a ++ b)).data = true
  have hd : (strLower (a ++ b)).data = (strLower a).data ++ (strLower b).data := by
    simp [strLower]
  rw [hd]
  exact containsSeq_left _ _

/-- The fill loop only appends. -/
theorem fillFromWeak_append (fmt : Topic' → String) (ts : List Topic')
    (cur : List String) : ∃ ext, fillFromWeak fmt cur ts = cur ++ ext := by
  induction ts generalizing cur with
  | nil => exact ⟨[], by simp [fillFromWeak]⟩
  | cons t ts ih =>
    by_cases h3 : 3 ≤ cur.length
    · exact ⟨[], by simp [fillFromWeak, h3]⟩
    · by_cases hm : strContains (strLower (joinSp cur)) (strLower t.name) = true
      · obtain ⟨e, he⟩ := ih cur
        refine ⟨e, ?_⟩
        rw [fillFromWeak, if_neg h3]
        dsimp only
        rw [if_pos hm]
        exact he
      · obtain ⟨e, he⟩ := ih (cur ++ [fmt t])
        refine ⟨[fmt t] ++ e, ?_⟩
        rw [fillFromWeak, if_neg h3]
        dsimp only
        rw [if_neg hm, he, List.append_assoc]

theorem setLast_cons_cons (a b : String) (l : List String) (x : String) :
    setLast (a :: b :: l) x = a :: setLast (b :: l) x := rfl

/-- Padding to three entries and capping at three preserves a cons head
and yields length exactly three. -/
theorem C5final (h0 : String) (t0 : List String) (nm s : String)
    (hc : strContains (strLower h0) (strLower nm) = true) :
    (((h0 :: t0) ++ List.replicate (3 - (h0 :: t0).length) s).take 3).length = 3 ∧
    strContains
      (strLower (((h0 :: t0) ++
        List.replicate (3 - (h0 :: t0).length) s).take 3).headI)
      (strLower nm) = true := by
  constructor
  · simp only [List.length_take, List.length_append, List.length_replicate,
      List.length_cons]
    omega
  · exact hc

/-- The tail of the weaknesses pipeline (fill, timing, pad, cap) keeps a
head that mentions `nm` and returns exactly three entries. -/
theorem C5chain (hh : String) (tt : List String) (nm : String)
    (hc : strContains (strLower hh) (strLower nm) = true)
    (ts : List Topic') (c : Prop) [Decidable c] (tw s : String) :
    (let l1 := fillFromWeak accuracyLine (hh :: tt) ts
     let l2 := if c then
         (if strContains (strLower (joinSp l1)) (strLower tw) then l1
          else if l1.length < 3 then l1 ++ [tw] else setLast l1 tw)
       else l1
     let l3 := l2 ++ List.replicate (3 - l2.length) s
     (l3.take 3).length = 3 ∧
       strContains (strLower (l3.take 3).headI) (strLower nm) = true) := by
  obtain ⟨ext, hext⟩ := fillFromWeak_append accuracyLine ts (hh :: tt)
  dsimp only
  rw [hext, List.cons_append]
  by_cases hcx : c
  · simp only [if_pos hcx]
    by_cases hj : strContains (strLower (joinSp (hh :: (tt ++ ext))))
        (strLower tw) = true
    · simp only [if_pos hj]
      exact C5final hh (tt ++ ext) nm s hc
    · simp only [if_neg hj]
      by_cases hlen : (hh :: (tt ++ ext)).length < 3
      · simp only [if_pos hlen]
        exact C5final hh (tt ++ ext ++ [tw]) nm s hc
      · simp only [if_neg hlen]
        cases hte : tt ++ ext with
        | nil =>
          rw [hte] at hlen
          simp at hlen
        | cons b l1 =>
          rw [setLast_cons_cons]
          exact C5final hh (setLast (b :: l1) tw) nm s hc
  · simp only [if_neg hcx]
    exact C5final hh (tt ++ ext) nm s hc

/-- The full weaknesses pipeline including the weakest-first step, over an
arbitrary extracted list `w0`. -/
theorem C5master (w0 : List String) (nm : String) (ts : List Topic')
    (c : Prop) [Decidable c] (tw s tailStr : String) :
    (let w1 := match w0 with
       | [] => [nm ++ tailStr]
       | h :: _ =>
         if strContains (strLower h) (strLower nm) then w0
         else (nm ++ tailStr) :: w0.filter (fun x => !x.isEmpty)
     let l1 := fillFromWeak accuracyLine w1 ts
     let l2 := if c then
         (if strContains (strLower (joinSp l1)) (strLower tw) then l1
          else if l1.length < 3 then l1 ++ [tw] else setLast l1 tw)
       else l1
     let l3 := l2 ++ List.replicate (3 - l2.length) s
     (l3.take 3).length = 3 ∧
       strContains (strLower (l3.take 3).headI) (strLower nm) = true) := by
  cases w0 with
  | nil =>
    dsimp only
    exact C5chain (nm ++ tailStr) [] nm (strContains_lower_left nm tailStr)
      ts c tw s
  | cons hh tt =>
    dsimp only
    by_cases hcon : strContains (strLower hh) (strLower nm) = true
    · simp only [if_pos hcon]
      exact C5chain hh tt nm hcon ts c tw s
    · simp only [if_neg hcon]
      exact C5chain (nm ++ tailStr) ((hh :: tt).filter (fun x => !x.isEmpty))
        nm (strContains_lower_left nm tailStr) ts c tw s

/-- **C5**.  For every raw model feedback value (of any shape) and every
analysis whose weak-topics list is nonempty (which `analyze_performance`
produces exactly when at least one topic was attempted), the coerced
feedback's `weaknesses` has exactly three entries and its first entry
contains the weakest topic's name case-insensitively. -/
theorem C5_weaknesses (ai : JVal) (analysis : Analysis) (subject : String)
    (w : Topic') (rest : List Topic')
    (h : analysis.weakTopics = w :: rest) :
    (coerceAiFeedbackSchema ai analysis subject).weaknesses.length = 3 ∧
    strContains
      (strLower (coerceAiFeedbackSchema ai analysis subject).weaknesses.headI)
      (strLower w.name) = true := by
  dsimp only [coerceAiFeedbackSchema]
  rw [h]
  dsimp only [List.head?]
  exact C5master _ _ _ _ _ _ _

def c5Frac : Topic' :=
  ⟨"Fractions", PyQ.ofInt 40, PyQ.ofInt 2, PyQ.ofInt 5, PyQ.ofInt 3⟩

def c5Analysis : Analysis :=
  { yearLevel := some 5
    overallPercentage := PyQ.ofInt 50
    accuracy := PyQ.ofInt 50
    grade := ""
    timeTakenMinutes := none
    totalQuestions := 10
    secondsPerQuestion := none
    pace := "steady"
    highCount := 0
    lowCount := 1
    topTopics := [c5Frac]
    weakTopics := [c5Frac] }

/-- Witness for C5: a concrete analysis whose only (hence weakest) topic
is `Fractions`, coerced from an empty model object. -/
theorem C5_witness :
    (coerceAiFeedbackSchema (.jobj []) c5Analysis "Mathematics").weaknesses.length
      = 3 ∧
    strContains
      (strLower
        (coerceAiFeedbackSchema (.jobj []) c5Analysis "Mathematics").weaknesses.headI)
      (strLower "Fractions") = true :=
  C5_weaknesses (.jobj []) c5Analysis "Mathematics" c5Frac [] rfl

/-- A review-sections document all of whose strings are sanitizer fixed
points at the three caps. -/
def reviewStableDoc : JVal :=
  .jobj [("review_sections", .jarr [.jobj
    [("id", .jstr "next_steps"), ("title", .jstr "Try this"),
     ("items", .jarr [.jstr "tip one", .jobj [("text", .jstr "fix it")]])]])]

/-- Witness for C6: every section id/cap obligation at a concrete input,
and exact idempotence on a sanitizer-stable document. -/
theorem C6_witness :
    allStrs stableStr reviewStableDoc = true ∧
    ensureReviewSectionsShape (ensureReviewSectionsShape reviewStableDoc) =
      ensureReviewSectionsShape reviewStableDoc :=
  ⟨by decide, (C6_review_sections_shape reviewStableDoc (.jarr [])).2 (by decide)⟩

/-- A title whose sanitized truncation at 80 is not itself stable: 78 `a`s,
a space, then `bbbbb` (84 characters). -/
def longTitle : String := String.mk (List.replicate 78 'a' ++ ' ' :: "bbbbb".data)

def reviewCounterDoc : JVal :=
  .jobj [("review_sections", .jarr [.jobj
    [("id", .jstr "sentence_improvements"), ("title", .jstr longTitle),
     ("items", .jarr [])]])]

/-- The length of the first review section title of a shaped document. -/
def firstTitleLen (v : JVal) : Nat :=
  match jPath1 v "review_sections" with
  | some (.jarr (x :: _)) => strLenAt (jPath1 x "title")
  | _ => 0

/-- Counterexample to the claim's "idempotent" (second application is a
no-op): an 84-character title is truncated to 81 characters on the first
pass (the cap-80 truncation appends `...` after the word boundary), and
the second pass re-truncates that to 83 characters, so applying
`ensure_review_sections_shape` twice differs from applying it once. -/
theorem C6_counterexample :
    firstTitleLen (ensureReviewSectionsShape reviewCounterDoc) = 81 ∧
    firstTitleLen (ensureReviewSectionsShape
      (ensureReviewSectionsShape reviewCounterDoc)) = 83 ∧
    ensureReviewSectionsShape (ensureReviewSectionsShape reviewCounterDoc) ≠
      ensureReviewSectionsShape reviewCounterDoc := by
  refine ⟨by decide, by decide, fun h => ?_⟩
  exact absurd (congrArg firstTitleLen h) (by decide)

/-! ### C8: the no-attempt gate of `main` -/

/-- **C8** (amended).  With the credential configured, a dict payload/doc,
a non-Writing quiz name, a *successfully normalized* student record, and a
zero topic-total session, `main` returns the fixed placeholder for every
possible model outcome (the model is never consulted).  The normalization
hypothesis is essential: a zero-total document with no readable overall
percentage fails `normalize_student_data` first and yields an error
result, not the placeholder (see the counterexample). -/
theorem C8_no_attempt (pf docF : List (String × JVal)) (modelName : String)
    (yearLevel : Option Int) (generatedAt : String) (sd : StudentData)
    (modelOutcome : Except String JVal)
    (hdoc : pyOr (jGetD pf "doc") (.jobj []) = .jobj docF)
    (hq : truthyNonStr (pyOr (jGetD docF "quiz_name")
      (pyOr (jGetD docF "quizName") (.jstr ""))) = false)
    (hsubj : inferSubjectFromQuizName (strOrEmpty (pyOr (jGetD docF "quiz_name")
      (pyOr (jGetD docF "quizName") (.jstr "")))) ≠ "Writing")
    (hnorm : normalizeStudentData docF = .ok sd)
    (hzero : isNoAttemptSession sd.topics = true) :
    mainModel (.jobj pf) true modelName yearLevel generatedAt modelOutcome =
      placeholderFeedback
        (inferSubjectFromQuizName (strOrEmpty (pyOr (jGetD docF "quiz_name")
          (pyOr (jGetD docF "quizName") (.jstr "")))))
        (strOrEmpty (pyOr (jGetD docF "quiz_name")
          (pyOr (jGetD docF "quizName") (.jstr ""))))
        modelName yearLevel generatedAt := by
  unfold mainModel
  dsimp only
  rw [hdoc]
  dsimp only
  rw [hq]
  simp only [Bool.false_eq_true, if_false]
  rw [if_neg hsubj, hnorm]
  dsimp only
  simp only [Bool.not_true, Bool.false_eq_true, if_false]
  rw [hzero]
  simp only [if_true]

def c8BadDoc : JVal :=
  .jobj [("doc", .jobj [("topicBreakdown", .jobj
    [("Fractions", .jobj [("scored", .jint 0), ("total", .jint 0)])])])]

/-- Counterexample to C8 as stated: a zero-total document with no readable
overall percentage does not produce the placeholder — normalization fails
first with the missing-percentage error, so `success` is `false` (the
placeholder has `success:true`). -/
theorem C8_counterexample :
    mainModel c8BadDoc true "m" none "now" (.ok (.jobj [])) =
      errOut "Missing overall percentage (score.percentage or score.points/available or computable from topics)" ∧
    jPath1 (mainModel c8BadDoc true "m" none "now" (.ok (.jobj [])))
      "success" = some (.jbool false) ∧
    jPath1 (placeholderFeedback "NAPLAN Assessment" "" "m" none "now")
      "success" = some (.jbool true) :=
  ⟨rfl, rfl, rfl⟩

def c8GoodDoc : List (String × JVal) :=
  [("score", .jobj [("percentage", .jint 0)]),
   ("topicBreakdown", .jobj
     [("Fractions", .jobj [("scored", .jint 0), ("total", .jint 0)])])]

/-- Witness for C8: a zero-total session with a readable percentage gets
the placeholder, identically for a failing and for a succeeding model
oracle. -/
theorem C8_witness :
    mainModel (.jobj [("doc", .jobj c8GoodDoc)]) true "m" none "now"
        (.error "boom") =
      placeholderFeedback "NAPLAN Assessment" "" "m" none "now" ∧
    mainModel (.jobj [("doc", .jobj c8GoodDoc)]) true "m" none "now"
        (.ok (.jobj [("weaknesses", .jarr [.jstr "x"])])) =
      placeholderFeedback "NAPLAN Assessment" "" "m" none "now" :=
  ⟨C8_no_attempt [("doc", .jobj c8GoodDoc)] c8GoodDoc "m" none "now"
      ⟨pyqZero, none, [⟨"Fractions", PyQ.ofInt 0, PyQ.ofInt 0⟩]⟩
      (.error "boom") rfl rfl (by decide) rfl rfl,
   C8_no_attempt [("doc", .jobj c8GoodDoc)] c8GoodDoc "m" none "now"
      ⟨pyqZero, none, [⟨"Fractions", PyQ.ofInt 0, PyQ.ofInt 0⟩]⟩
      (.ok (.jobj [("weaknesses", .jarr [.jstr "x"])])) rfl rfl (by decide)
      rfl rfl⟩

/-- Witness for C4: the spec's sample points through the amended theorem —
`(5, 0)` via the nonpositive-max clause, `(33, 50)` and `(17, 50)` via the
rubric-domain agreement clause, `(7, 20)` via the computed-percentage
characterization (its float percentage is exactly `35.0`), and the
spec-side reading at `(7, 20)`. -/
theorem C4_witness :
    bandFromScore 5 0 = "Below Minimum Standard" ∧
    bandFromScore 33 50 = bandFromScoreSpec 33 50 ∧
    bandFromScoreSpec 33 50 = "Above Minimum Standard" ∧
    bandFromScore 17 50 = bandFromScoreSpec 17 50 ∧
    bandFromScoreSpec 17 50 = "Below Minimum Standard" ∧
    bandFromScore 7 20 = "At Minimum Standard" ∧
    bandFromScoreSpec 7 20 = "At Minimum Standard" := by
  have hpct : flMul (flDiv (PyQ.ofInt 7) (PyQ.ofInt 20)) (PyQ.ofInt 100) =
      (⟨4925812092436480, 140737488355328⟩ : PyQ) := by decide
  refine ⟨(C4_band_from_score 5 0).1 (by decide),
    (C4_band_from_score 33 50).2.2.1 (by decide) (by decide) (Or.inl rfl),
    by decide,
    (C4_band_from_score 17 50).2.2.1 (by decide) (by decide) (Or.inl rfl),
    by decide,
    (((C4_band_from_score 7 20).2.1 (by decide)).2.1).mpr ⟨?_, ?_⟩,
    (((C4_band_from_score 7 20).2.2.2 (by decide)).2.1).mpr (by norm_num)⟩
  · rw [hpct]
    norm_num [PyQ.toRat]
  · rw [hpct]
    norm_num [PyQ.toRat]

/-! ### C3: scores and totals -/

theorem clampInt_idem (s lo hi : Int) :
    clampInt (clampInt s lo hi) lo hi = clampInt s lo hi := by
  unfold clampInt
  omega

theorem clampInt_zero (s : Int) : clampInt s 0 0 = 0 := by
  unfold clampInt
  omega

theorem clampInt_nonneg (s hi : Int) : 0 ≤ clampInt s 0 hi := by
  unfold clampInt
  omega

theorem clampInt_le_max (s hi : Int) : clampInt s 0 hi ≤ max 0 hi := by
  unfold clampInt
  omega

theorem normLoop_total_step (am : List (String × Option Int)) (tt : String)
    (rest : List JVal) (seen2 : List String) (nm sg ev : String)
    (X : Option Int × Option Int × Int)
    (hcontrib : clampInt (X.1.getD 0) 0 (X.2.1.getD 0) = X.2.2)
    (kept : List Crit) (t : Int)
    (h : (match normLoop am tt rest seen2 with
          | Except.error e => Except.error e
          | Except.ok (l, t) =>
            Except.ok ((⟨nm, X.1, X.2.1, sg, ev⟩ : Crit) :: l, t + X.2.2)) =
      Except.ok (kept, t))
    (ih : ∀ kept2 t2, normLoop am tt rest seen2 = .ok (kept2, t2) →
      t2 = (kept2.map fun c => clampInt (c.score.getD 0) 0 (c.max.getD 0)).sum) :
    t = (kept.map fun c => clampInt (c.score.getD 0) 0 (c.max.getD 0)).sum := by
  cases hrec : normLoop am tt rest seen2 with
  | error e =>
    rw [hrec] at h
    exact absurd h (by simp)
  | ok pr =>
    obtain ⟨l2, t2⟩ := pr
    rw [hrec] at h
    simp only [Except.ok.injEq, Prod.mk.injEq] at h
    obtain ⟨hk, ht⟩ := h
    subst hk
    subst ht
    rw [List.map_cons, List.sum_cons]
    have iht := ih l2 t2 hrec
    dsimp only
    rw [hcontrib, ← iht]
    omega

set_option maxHeartbeats 8000000 in
theorem normLoop_total (am : List (String × Option Int)) (tt : String) :
    ∀ (l : List JVal) (seen : List String) (kept : List Crit) (t : Int),
      normLoop am tt l seen = .ok (kept, t) →
      t = (kept.map fun c => clampInt (c.score.getD 0) 0 (c.max.getD 0)).sum := by
  intro l
  induction l with
  | nil =>
    intro seen kept t h
    simp only [normLoop, Except.ok.injEq, Prod.mk.injEq] at h
    obtain ⟨h1, h2⟩ := h
    subst h1
    subst h2
    rfl
  | cons c rest ih =>
    intro seen kept t h
    cases c with
    | jobj fields =>
      simp only [normLoop] at h
      by_cases h1 : truthyNonStr (jGetD fields "name") = true
      · rw [if_pos h1] at h
        exact absurd h (by simp)
      · rw [if_neg h1] at h
        by_cases h2 : (canonicalizeCriterionName (strOrEmpty (jGetD fields "name")) am).isEmpty = true
        · rw [if_pos h2] at h
          exact ih _ _ _ h
        · rw [if_neg h2] at h
          by_cases h3 : seen.contains (strLower (canonicalizeCriterionName (strOrEmpty (jGetD fields "name")) am)) = true
          · rw [if_pos h3] at h
            exact ih _ _ _ h
          · rw [if_neg h3] at h
            by_cases h4 : tt = "Narrative" ∧ canonicalizeCriterionName (strOrEmpty (jGetD fields "name")) am = "Persuasive Devices"
            · rw [if_pos h4] at h
              by_cases h5 : truthyNonStr (jGetD fields "suggestion") = true
              · rw [if_pos h5] at h
                exact absurd h (by simp)
              · rw [if_neg h5] at h
                cases hrec : normLoop am tt rest (strLower (canonicalizeCriterionName (strOrEmpty (jGetD fields "name")) am) :: seen) with
                | error e =>
                  rw [hrec] at h
                  exact absurd h (by simp)
                | ok pr =>
                  obtain ⟨l2, t2⟩ := pr
                  rw [hrec] at h
                  simp only [Except.ok.injEq, Prod.mk.injEq] at h
                  obtain ⟨hk, ht⟩ := h
                  subst hk
                  subst ht
                  have iht := ih _ _ _ hrec
                  rw [List.map_cons, List.sum_cons, ← iht]
                  dsimp only
                  simp only [Option.getD_none, clampInt_zero]
                  omega
            · rw [if_neg h4] at h
              by_cases h5 : truthyNonStr (jGetD fields "suggestion") = true
              · rw [if_pos h5] at h
                exact absurd h (by simp)
              · rw [if_neg h5] at h
                by_cases h6 : truthyNonStr (jGetD fields "evidence_quote") = true
                · rw [if_pos h6] at h
                  exact absurd h (by simp)
                · rw [if_neg h6] at h
                  cases hlk : List.lookup (canonicalizeCriterionName (strOrEmpty (jGetD fields "name")) am) am with
                  | none =>
                    rw [hlk] at h
                    dsimp only at h
                    cases hpi : pyIsInt (jGetD fields "max") with
                    | some mx =>
                      rw [hpi] at h
                      dsimp only at h
                      exact normLoop_total_step am tt rest _ _ _ _
                        (some (clampInt ((pyIsInt (jGetD fields "score")).getD 0) 0 mx),
                         some mx,
                         clampInt ((pyIsInt (jGetD fields "score")).getD 0) 0 mx)
                        (clampInt_idem ((pyIsInt (jGetD fields "score")).getD 0) 0 mx)
                        kept t h (fun k2 t2 hh => ih _ k2 t2 hh)
                    | none =>
                      rw [hpi] at h
                      dsimp only at h
                      exact normLoop_total_step am tt rest _ _ _ _
                        (some ((pyIsInt (jGetD fields "score")).getD 0), some 0, 0)
                        (clampInt_zero ((pyIsInt (jGetD fields "score")).getD 0))
                        kept t h (fun k2 t2 hh => ih _ k2 t2 hh)
                  | some o =>
                    cases o with
                    | some n =>
                      rw [hlk] at h
                      rw [show pyIsInt (JVal.jint n) = some n from rfl] at h
                      dsimp only at h
                      exact normLoop_total_step am tt rest _ _ _ _
                        (some (clampInt ((pyIsInt (jGetD fields "score")).getD 0) 0 n),
                         some n,
                         clampInt ((pyIsInt (jGetD fields "score")).getD 0) 0 n)
                        (clampInt_idem ((pyIsInt (jGetD fields "score")).getD 0) 0 n)
                        kept t h (fun k2 t2 hh => ih _ k2 t2 hh)
                    | none =>
                      rw [hlk] at h
                      rw [show pyIsInt JVal.jnull = none from rfl] at h
                      dsimp only at h
                      exact normLoop_total_step am tt rest _ _ _ _
                        (some ((pyIsInt (jGetD fields "score")).getD 0), some 0, 0)
                        (clampInt_zero ((pyIsInt (jGetD fields "score")).getD 0))
                        kept t h (fun k2 t2 hh => ih _ k2 t2 hh)
    | jnull => simp only [normLoop] at h; exact ih _ _ _ h
    | jbool b => simp only [normLoop] at h; exact ih _ _ _ h
    | jint n => simp only [normLoop] at h; exact ih _ _ _ h
    | jnum q => simp only [normLoop] at h; exact ih _ _ _ h
    | jstr s => simp only [normLoop] at h; exact ih _ _ _ h
    | jarr xs => simp only [normLoop] at h; exact ih _ _ _ h


theorem fillMissing_total (am : List (String × Option Int)) (ex : List String)
    (tt : String) :
    ((fillMissing am ex tt).map
      fun c => clampInt (c.score.getD 0) 0 (c.max.getD 0)).sum = 0 := by
  induction am with
  | nil => rfl
  | cons p ps ih =>
    simp only [fillMissing] at ih ⊢
    rw [List.filterMap_cons]
    cases hc : ex.contains p.1 with
    | true => simpa using ih
    | false =>
      rw [if_neg (by simp)]
      dsimp only
      rw [List.map_cons, List.sum_cons, ih]
      unfold synthCrit
      by_cases hn : tt = "Narrative" ∧ p.1 = "Persuasive Devices"
      · rw [if_pos hn]
        dsimp only
        simp only [Option.getD_none, clampInt_zero]
        omega
      · rw [if_neg hn]
        dsimp only
        simp only [Option.getD_some]
        rw [show clampInt 0 0 (p.2.getD 0) = 0 from by unfold clampInt; omega]
        omega

theorem normalize_total (crits : JVal) (am : List (String × Option Int))
    (tt : String) (out : List Crit) (total : Int)
    (h : normalizeCriteriaList crits am tt = .ok (out, total)) :
    total = (out.map fun c => clampInt (c.score.getD 0) 0 (c.max.getD 0)).sum := by
  unfold normalizeCriteriaList at h
  dsimp only at h
  split at h
  · exact absurd h (by simp)
  · rename_i kept t heq
    simp only [Except.ok.injEq, Prod.mk.injEq] at h
    obtain ⟨ho, ht⟩ := h
    subst ho
    subst ht
    rw [List.map_append, List.sum_append, fillMissing_total,
      ← normLoop_total am tt _ _ _ _ heq]
    omega

/-- The criteria value that `evaluate_naplan_writing`'s try-body hands to
the normalizer: the model object defaulted and reshaped exactly as in the
source, then `data.get("criteria") or []`. -/
def modelCriteriaOf (y : Int) (tt : String) (wcf : Wcf)
    (mo : Except String JVal) : JVal :=
  match mo with
  | .ok (.jobj fs) =>
    let fields := dictSetD fs "meta" (.jobj [])
    let fields := dictSetD fields "overall" (.jobj [])
    let fields := dictSetD fields "criteria" (.jarr [])
    let fields := dictSetD fields "review_sections" (.jarr [])
    match jGet fields "meta" with
    | some (.jobj g) =>
      let metaF := dictSet g "year_level" (.jint y)
      let metaF := dictSet metaF "text_type" (.jstr tt)
      let metaF := dictSet metaF "valid_response" (.jbool true)
      let metaF := dictSet metaF "word_count_feedback" wcf.toJVal
      let metaF := match jGet metaF "prompt_relevance" with
        | some (.jobj pr) =>
          if (jGet pr "verdict").isSome then metaF
          else dictSet metaF "prompt_relevance" prOnTopic
        | _ => dictSet metaF "prompt_relevance" prOnTopic
      pyOr (jGetD (dictSet fields "meta" (.jobj metaF)) "criteria") (.jarr [])
    | _ => .jarr []
  | _ => .jarr []

set_option maxHeartbeats 8000000 in
theorem evalTryBody_scores (y : Int) (tt : String) (mt : Int) (wcf : Wcf)
    (mo : Except String JVal) (res : JVal)
    (h : evalTryBody y tt mt wcf mo = .ok res) :
    ∃ out total,
      normalizeCriteriaList (modelCriteriaOf y tt wcf mo) (buildSchemaMax tt)
        tt = .ok (out, total) ∧
      jPath2 res "overall" "max_score" = some (.jint mt) ∧
      jPath2 res "overall" "total_score" = some (.jint total) := by
  cases mo with
  | error e =>
    rw [show evalTryBody y tt mt wcf (.error e) = .error e from rfl] at h
    exact absurd h (by simp)
  | ok data =>
    cases data with
    | jnull =>
      rw [show evalTryBody y tt mt wcf (.ok .jnull) =
        .error "Model returned non-dict JSON." from rfl] at h
      exact absurd h (by simp)
    | jbool b =>
      rw [show evalTryBody y tt mt wcf (.ok (.jbool b)) =
        .error "Model returned non-dict JSON." from rfl] at h
      exact absurd h (by simp)
    | jint n =>
      rw [show evalTryBody y tt mt wcf (.ok (.jint n)) =
        .error "Model returned non-dict JSON." from rfl] at h
      exact absurd h (by simp)
    | jnum q =>
      rw [show evalTryBody y tt mt wcf (.ok (.jnum q)) =
        .error "Model returned non-dict JSON." from rfl] at h
      exact absurd h (by simp)
    | jstr st =>
      rw [show evalTryBody y tt mt wcf (.ok (.jstr st)) =
        .error "Model returned non-dict JSON." from rfl] at h
      exact absurd h (by simp)
    | jarr xs =>
      rw [show evalTryBody y tt mt wcf (.ok (.jarr xs)) =
        .error "Model returned non-dict JSON." from rfl] at h
      exact absurd h (by simp)
    | jobj fs =>
      simp only [evalTryBody] at h
      dsimp only [Bind.bind, Pure.pure, Except.instMonad, Except.bind,
        Except.pure] at h
      split at h
      · rename_i g heqMeta
        split at h
        · rename_i e2 heqN
          exact absurd h (by simp)
        · rename_i r0 heqN
          obtain ⟨out0, total0⟩ := r0
          split at h
          · rename_i ovF heqOv
            split at h
            · exact absurd h (fun hcon => Except.noConfusion hcon)
            · simp only [Except.ok.injEq] at h
              subst h
              refine ⟨out0, total0, ?_, ?_, ?_⟩
              · unfold modelCriteriaOf
                dsimp only
                rw [heqMeta]
                dsimp only
                exact heqN
              · rw [show ∀ X : List (String × JVal),
                    ensureReviewSectionsShape (.jobj X) =
                    .jobj (dictSet X "review_sections"
                      (.jarr (shapeSections (jGetD X "review_sections"))))
                    from fun X => rfl]
                simp only [jPath2, jPath1]
                rw [jGet_dictSet_ne _ _ _ _ (by decide), jGet_dictSet_self]
                dsimp only
                rw [jGet_dictSet_ne _ _ _ _ (by decide),
                  jGet_dictSet_ne _ _ _ _ (by decide),
                  jGet_dictSet_ne _ _ _ _ (by decide),
                  jGet_dictSet_ne _ _ _ _ (by decide),
                  jGet_dictSet_ne _ _ _ _ (by decide),
                  jGet_dictSet_ne _ _ _ _ (by decide), jGet_dictSet_self]
              · rw [show ∀ X : List (String × JVal),
                    ensureReviewSectionsShape (.jobj X) =
                    .jobj (dictSet X "review_sections"
                      (.jarr (shapeSections (jGetD X "review_sections"))))
                    from fun X => rfl]
                simp only [jPath2, jPath1]
                rw [jGet_dictSet_ne _ _ _ _ (by decide), jGet_dictSet_self]
                dsimp only
                rw [jGet_dictSet_ne _ _ _ _ (by decide),
                  jGet_dictSet_ne _ _ _ _ (by decide),
                  jGet_dictSet_ne _ _ _ _ (by decide),
                  jGet_dictSet_ne _ _ _ _ (by decide),
                  jGet_dictSet_ne _ _ _ _ (by decide), jGet_dictSet_self]
          · rename_i heqOv
            exact absurd h (fun hcon => Except.noConfusion hcon)
      · rename_i heqMeta
        exact absurd h (fun hcon => Except.noConfusion hcon)


set_option maxHeartbeats 8000000 in
/-- **C3** (amended).  Every `.success` result of the writing evaluation
carries `overall.max_score = max_total` of the resolved text type (50 for
Narrative, 55 for Persuasive), and on the full-evaluation path
`overall.total_score` is exactly the normalizer total: a sum of one
contribution `clamp(score, 0, max)` per output criterion, each lying in
`[0, max 0 max_i]`.  The claim's stronger "each clamped score lies in
[0, that criterion's max]" is false: a model-supplied negative `max` on an
unmatched criterion yields the stored pair score `0`, max `-5`, and `[0,
-5]` contains nothing (see the counterexample). -/
theorem C3_scores (y : Int) (p w : String) (tto : Option String) (hk : Bool)
    (mo : Except String JVal) (r : JVal)
    (h : evaluateNaplanWriting y p w tto hk mo = .success r) :
    jPath2 r "overall" "max_score" =
      some (.jint (maxTotalOf (resolveTextType tto p w))) ∧
    (resolveTextType tto p w = "Narrative" →
      maxTotalOf (resolveTextType tto p w) = 50) ∧
    (resolveTextType tto p w = "Persuasive" →
      maxTotalOf (resolveTextType tto p w) = 55) ∧
    (∀ res out total,
      evalTryBody y (resolveTextType tto p w)
        (maxTotalOf (resolveTextType tto p w))
        (generateWordCountFeedback y (countWords (cleanedForChecks w))) mo =
          .ok res →
      normalizeCriteriaList
        (modelCriteriaOf y (resolveTextType tto p w)
          (generateWordCountFeedback y (countWords (cleanedForChecks w))) mo)
        (buildSchemaMax (resolveTextType tto p w)) (resolveTextType tto p w) =
          .ok (out, total) →
      jPath2 res "overall" "total_score" = some (.jint total) ∧
      total = (out.map fun c => clampInt (c.score.getD 0) 0 (c.max.getD 0)).sum ∧
      ∀ c ∈ out, 0 ≤ clampInt (c.score.getD 0) 0 (c.max.getD 0) ∧
        clampInt (c.score.getD 0) 0 (c.max.getD 0) ≤ max 0 (c.max.getD 0)) := by
  refine ⟨?_, fun htt => by rw [htt]; decide,
    fun htt => by rw [htt]; decide, ?_⟩
  · unfold evaluateNaplanWriting at h
    dsimp only at h
    by_cases hb : isBlank (cleanedForChecks w) = true
    · rw [if_pos hb] at h
      simp only [baseOutputShape, ensureReviewSectionsShape] at h
      simp only [EvalOut.success.injEq] at h
      subst h
      rfl
    · rw [if_neg hb] at h
      cases hk with
      | false =>
        simp only [Bool.not_false, eq_self_iff_true, if_true] at h
        exact absurd h (fun hcon => EvalOut.noConfusion hcon)
      | true =>
        simp only [Bool.not_true, Bool.false_eq_true, if_false] at h
        by_cases hwc : countWords (cleanedForChecks w) < MIN_AI_WORDS
        · rw [if_pos hwc] at h
          simp only [baseOutputShape, ensureReviewSectionsShape] at h
          simp only [EvalOut.success.injEq] at h
          subst h
          rfl
        · rw [if_neg hwc] at h
          cases hbody : evalTryBody y (resolveTextType tto p w)
              (maxTotalOf (resolveTextType tto p w))
              (generateWordCountFeedback y (countWords (cleanedForChecks w)))
              mo with
          | ok result =>
            rw [hbody] at h
            dsimp only at h
            simp only [EvalOut.success.injEq] at h
            subst h
            obtain ⟨o2, t2, _, hmax2, _⟩ := evalTryBody_scores _ _ _ _ _ _ hbody
            exact hmax2
          | error e =>
            rw [hbody] at h
            dsimp only at h
            simp only [EvalOut.success.injEq] at h
            subst h
            rfl
  · intro res out total h2 h3
    obtain ⟨out2, total2, hN2, hmax2, htot2⟩ := evalTryBody_scores y
      (resolveTextType tto p w) (maxTotalOf (resolveTextType tto p w))
      (generateWordCountFeedback y (countWords (cleanedForChecks w))) mo res h2
    rw [h3] at hN2
    simp only [Except.ok.injEq, Prod.mk.injEq] at hN2
    obtain ⟨ho2, ht2⟩ := hN2
    subst ho2
    subst ht2
    exact ⟨htot2, normalize_total _ _ _ _ _ h3,
      fun c hc => ⟨clampInt_nonneg _ _, clampInt_le_max _ _⟩⟩


def c3BadCrit : JVal :=
  .jobj [("name", .jstr "Bogus"), ("score", .jint 3), ("max", .jint (-5))]

/-- Counterexample to C3 as stated: an unknown criterion with a negative
supplied max is stored with score `0` and max `-5`, and `0 ∉ [0, -5]`. -/
theorem C3_counterexample :
    normalizeCriteriaList (.jarr [c3BadCrit]) (buildSchemaMax "Narrative")
        "Narrative" =
      .ok ((⟨"Bogus", some 0, some (-5), defaultSuggestion, ""⟩ : Crit) ::
        fillMissing (buildSchemaMax "Narrative") ["Bogus"] "Narrative", 0) ∧
    ¬((0 : Int) ≤ -5) :=
  ⟨rfl, by decide⟩

/-- Witness for C3: a full concrete evaluation (25 words, empty model
object) whose `overall.max_score` is the resolved rubric total. -/
theorem C3_witness :
    ∃ r, evaluateNaplanWriting 5 "prompt"
        "word word word word word word word word word word word word word word word word word word word word word word word word word" none true (.ok (.jobj [])) =
          .success r ∧
      jPath2 r "overall" "max_score" = some (.jint (maxTotalOf
        (resolveTextType none "prompt" "word word word word word word word word word word word word word word word word word word word word word word word word word"))) :=
  ⟨_, rfl, (C3_scores 5 "prompt" "word word word word word word word word word word word word word word word word word word word word word word word word word"
    none true (.ok (.jobj [])) _ rfl).1⟩

end EduTech
